import Mathlib

/-!
Verification of the Agent-Git persistence and checkpoint-diff subsystem.

The definitions below are a shallow embedding of the Python sources:
  * `agentgit/checkpoints/diff.py`,
  * `agentgit/database/repositories/internal_session_repository.py`,
  * `agentgit/database/repositories/checkpoint_repository.py`,
  * `agentgit/database/db_config.py` (transaction semantics of
    `get_db_connection`).

Python JSON-like values are modelled by the mutual inductive `JVal`;
Python `dict`s preserve insertion order, so objects are ordered key/value
sequences.  Datetimes are modelled as natural numbers (the code only
compares them and renders them with `isoformat`, modelled by the decimal
rendering `toString`).  Truthiness of optional integers (Python
`if not session.id:` etc.) is modelled explicitly.
-/

namespace AgentGit

mutual
/-- JSON-like value as stored in Python dicts (order-preserving objects). -/
inductive JVal where
  | str (s : String)
  | num (n : Int)
  | bool (b : Bool)
  | null
  | arr (xs : JArr)
  | obj (o : JObj)
  deriving DecidableEq
inductive JArr where
  | nil
  | cons (v : JVal) (rest : JArr)
  deriving DecidableEq
inductive JObj where
  | nil
  | cons (k : String) (v : JVal) (rest : JObj)
  deriving DecidableEq
end

/-- Lookup in a Python dict modelled as an ordered association sequence. -/
def JObj.get : JObj → String → Option JVal
  | .nil, _ => none
  | .cons k v rest, key => if k = key then some v else JObj.get rest key

/-- Python dict item assignment `o[key] = v`: replace the value in place if
the key exists, otherwise append the new binding at the end. -/
def JObj.set : JObj → String → JVal → JObj
  | .nil, key, v => .cons key v .nil
  | .cons k v0 rest, key, v =>
    if k = key then .cons k v rest else .cons k v0 (JObj.set rest key v)

/-- Codepoint comparison of two characters, as Python compares strings. -/
def charsLt : List Char → List Char → Bool
  | [], [] => false
  | [], _ :: _ => true
  | _ :: _, [] => false
  | a :: as, b :: bs =>
    if a.toNat < b.toNat then true
    else if b.toNat < a.toNat then false
    else charsLt as bs

/-- Python string `<` (lexicographic on code points). -/
def pyStrLt (a b : String) : Bool := charsLt a.data b.data

/-- Non-strict string order used to model Python `sorted` on strings. -/
def pyStrLe (a b : String) : Prop := pyStrLt a b = true ∨ a = b

instance : DecidableRel pyStrLe := fun a b => by
  unfold pyStrLe; infer_instance

/-- Truthiness of a Python optional integer (`None` and `0` are falsy). -/
def pyTruthy : Option Nat → Bool
  | none => false
  | some n => n != 0

/-- Decimal digit value of a character, for parsing serialized timestamps. -/
def digitVal (c : Char) : Option Nat :=
  if 48 ≤ c.toNat ∧ c.toNat ≤ 57 then some (c.toNat - 48) else none

/-- Accumulating parser over a character list for decimal naturals. -/
def parseNatAux : List Char → Nat → Option Nat
  | [], acc => some acc
  | c :: cs, acc =>
    match digitVal c with
    | some d => parseNatAux cs (10 * acc + d)
    | none => none

/-- Parse a decimal natural from a string (model of timestamp parsing). -/
def pyParseNat (s : String) : Option Nat :=
  match s.data with
  | [] => none
  | cs => parseNatAux cs 0

/-- Model of `datetime.isoformat()`: datetimes are modelled as natural
numbers, serialized by an injective rendering to a string. -/
def isoformat (t : Nat) : String := toString t

/-- Parse the serialized form of a datetime back (model of
`datetime.fromisoformat`). -/
def parseIso (v : JVal) : Option Nat :=
  match v with
  | .str s => pyParseNat s
  | _ => none

/-! ## Embedding of `agentgit/checkpoints/diff.py` -/

/-- Type of change detected in a diff (`ChangeType` in `diff.py`). -/
inductive ChangeType where
  | added
  | removed
  | modified
  deriving DecidableEq

/-- A change in session state (`StateChange` in `diff.py`); the optional
values model the Python `None` defaults. -/
structure StateChange where
  path : String
  change_type : ChangeType
  old_value : Option JVal := none
  new_value : Option JVal := none
  deriving DecidableEq

/-- One tool-invocation record as stored in `tool_invocations` lists: a
Python dict whose keys may be absent (`none` models a missing key). -/
structure ToolRecord where
  tool_name : Option String := none
  tool : Option String := none
  args : Option JObj := none
  result : Option String := none
  success : Option Bool := none
  error_message : Option String := none
  deriving DecidableEq

/-- A tool invocation in the diff (`ToolInvocationChange` in `diff.py`). -/
structure ToolInvocationChange where
  index : Nat
  tool_name : String
  args : JObj
  result : Option String
  success : Bool
  error_message : Option String
  deriving DecidableEq

/-- Conversation-history section of a diff report (the dict built by
`_compare_conversations`). -/
structure ConversationDiff where
  old_length : Nat
  new_length : Nat
  messages_added : Int
  new_messages : List JVal
  deriving DecidableEq

/-- Metadata section of a diff report (the raw pair of metadata dicts). -/
structure MetadataDiff where
  old_metadata : JObj
  new_metadata : JObj
  deriving DecidableEq

/-- In-memory checkpoint object. Modelled from the spec: the dataclass
`agentgit.checkpoints.checkpoint.Checkpoint` is not part of the sources;
its attributes are those accessed by `diff.py` and the checkpoint
repository (`id`, `internal_session_id`, `checkpoint_name`,
`session_state`, `conversation_history`, `tool_invocations`,
`created_at`, `is_auto`, `user_id`, `metadata`). -/
structure Checkpoint where
  id : Option Nat := none
  internal_session_id : Nat
  checkpoint_name : String := ""
  session_state : Option JObj := none
  conversation_history : Option (List JVal) := none
  tool_invocations : Option (List ToolRecord) := none
  created_at : Option Nat := none
  is_auto : Bool := false
  user_id : Option Nat := none
  metadata : Option JObj := none
  deriving DecidableEq

/-- Complete diff report between two checkpoints (`DiffReport`). -/
structure DiffReport where
  checkpoint_a_id : Option Nat
  checkpoint_b_id : Option Nat
  state_changes : List StateChange
  tool_invocations : List ToolInvocationChange
  conversation_diff : ConversationDiff
  metadata_diff : MetadataDiff
  deriving DecidableEq

/-- Flatten a nested dict with dot-notation paths (`_flatten_dict`).
The result is the expanded item sequence; Python applies `dict(items)`
whose lookup semantics (last binding wins) is `flatGet` below. -/
def _flatten_dict (parent_key : String) (o : JObj) : List (String × JVal) :=
  match o with
  | .nil => []
  | .cons k v rest =>
    let new_key := if parent_key = "" then k else parent_key ++ "." ++ k
    (match v with
     | .obj o2 => _flatten_dict new_key o2
     | _ => [(new_key, v)]) ++ _flatten_dict parent_key rest

/-- Lookup in a flattened item sequence with Python `dict(items)`
semantics: the last binding of a key wins. -/
def flatGet (items : List (String × JVal)) (key : String) : Option JVal :=
  ((items.filter (fun p => p.1 = key)).getLast?).map (fun p => p.2)

/-- Membership of a key in a flattened item sequence. -/
def flatMem (items : List (String × JVal)) (key : String) : Bool :=
  items.any (fun p => p.1 = key)

/-- Compare two dicts and return state changes (`_compare_dicts`): flatten
both, take the sorted union of keys, and classify each key. -/
def _compare_dicts (old new : JObj) : List StateChange :=
  let old_flat := _flatten_dict "" old
  let new_flat := _flatten_dict "" new
  let all_keys := ((old_flat.map Prod.fst) ++ (new_flat.map Prod.fst)).dedup
  let sorted_keys := List.insertionSort pyStrLe all_keys
  sorted_keys.filterMap (fun key =>
    let old_val := flatGet old_flat key
    let new_val := flatGet new_flat key
    if ¬ flatMem old_flat key then
      some { path := key, change_type := .added, new_value := new_val }
    else if ¬ flatMem new_flat key then
      some { path := key, change_type := .removed, old_value := old_val }
    else if old_val ≠ new_val then
      some { path := key, change_type := .modified
             old_value := old_val, new_value := new_val }
    else none)

/-- Build one `ToolInvocationChange` from a raw record, with the `.get`
defaults used in `_compare_tool_invocations`. -/
def toolChangeOfRecord (idx : Nat) (r : ToolRecord) : ToolInvocationChange :=
  { index := idx
    tool_name := r.tool_name.getD (r.tool.getD "unknown")
    args := r.args.getD .nil
    result := r.result
    success := r.success.getD true
    error_message := r.error_message }

/-- Extract tool invocations that exist in `new` but not in `old`
(`_compare_tool_invocations`): the slice `new_tools[len(old_tools):]`,
enumerated starting at `len(old_tools)`. -/
def _compare_tool_invocations (old_tools new_tools : List ToolRecord) :
    List ToolInvocationChange :=
  let old_count := old_tools.length
  let new_tools_after := new_tools.drop old_count
  new_tools_after.enum.map (fun p => toolChangeOfRecord (old_count + p.1) p.2)

/-- Compare conversation histories (`_compare_conversations`). -/
def _compare_conversations (old_history new_history : List JVal) :
    ConversationDiff :=
  { old_length := old_history.length
    new_length := new_history.length
    messages_added := (new_history.length : Int) - (old_history.length : Int)
    new_messages :=
      if new_history.length > old_history.length then
        new_history.drop old_history.length
      else [] }

/-- Return checkpoints ordered from older to newer (`_order_checkpoints`).
The comparison keys are tried in the order of the Python code: both
`created_at` present decides by `≤`; otherwise both `id` present decides
by `≤`; otherwise unequal history lengths decide; otherwise unequal
tool-list lengths decide; otherwise the argument order is kept. -/
def _order_checkpoints (a b : Checkpoint) : Checkpoint × Checkpoint :=
  match a.created_at, b.created_at with
  | some ca, some cb => if ca ≤ cb then (a, b) else (b, a)
  | _, _ =>
    match a.id, b.id with
    | some ia, some ib => if ia ≤ ib then (a, b) else (b, a)
    | _, _ =>
      let ha := a.conversation_history.getD []
      let hb := b.conversation_history.getD []
      if ha.length ≠ hb.length then
        if ha.length ≤ hb.length then (a, b) else (b, a)
      else
        let ta := a.tool_invocations.getD []
        let tb := b.tool_invocations.getD []
        if ta.length ≠ tb.length then
          if ta.length ≤ tb.length then (a, b) else (b, a)
        else (a, b)

/-- Compare two checkpoints and return a detailed diff report
(`compare_checkpoints`): order internally from older to newer, then diff
state, tool invocations, conversation and metadata. -/
def compare_checkpoints (checkpoint_a checkpoint_b : Checkpoint) : DiffReport :=
  let op := _order_checkpoints checkpoint_a checkpoint_b
  let older := op.1
  let newer := op.2
  { checkpoint_a_id := older.id
    checkpoint_b_id := newer.id
    state_changes :=
      _compare_dicts (older.session_state.getD .nil) (newer.session_state.getD .nil)
    tool_invocations :=
      _compare_tool_invocations (older.tool_invocations.getD [])
        (newer.tool_invocations.getD [])
    conversation_diff :=
      _compare_conversations (older.conversation_history.getD [])
        (newer.conversation_history.getD [])
    metadata_diff :=
      { old_metadata := older.metadata.getD .nil
        new_metadata := newer.metadata.getD .nil } }

end AgentGit

namespace AgentGit

/-- Ordering cascade exactly as the specification words it: each key is
tried in turn and the cascade moves to the next key whenever the current
key does not yield a strict comparison (in particular on ties of
`created_at` or `id`); a full tie resolves to the first argument. -/
def orderCheckpointsSpecCascade (a b : Checkpoint) : Checkpoint × Checkpoint :=
  let key34 :=
    let ha := (a.conversation_history.getD []).length
    let hb := (b.conversation_history.getD []).length
    if ha < hb then (a, b)
    else if hb < ha then (b, a)
    else
      let ta := (a.tool_invocations.getD []).length
      let tb := (b.tool_invocations.getD []).length
      if ta < tb then (a, b)
      else if tb < ta then (b, a)
      else (a, b)
  let key2 :=
    match a.id, b.id with
    | some ia, some ib =>
      if ia < ib then (a, b) else if ib < ia then (b, a) else key34
    | _, _ => key34
  match a.created_at, b.created_at with
  | some ca, some cb =>
    if ca < cb then (a, b) else if cb < ca then (b, a) else key2
  | _, _ => key2

/-- Ordering cascade as it is actually implemented: the cascade moves to
the next key only when the current key is unavailable (a missing
`created_at` or `id` on either side, or equal lengths for the two length
keys); when both values of a key are present, `a ≤ b` keeps the argument
order and `b < a` swaps, so a tie at a present key resolves to the first
argument without consulting later keys. -/
def orderCheckpointsImplCascade (a b : Checkpoint) : Checkpoint × Checkpoint :=
  match a.created_at, b.created_at with
  | some ca, some cb =>
    if ca < cb then (a, b) else if cb < ca then (b, a) else (a, b)
  | _, _ =>
    match a.id, b.id with
    | some ia, some ib =>
      if ia < ib then (a, b) else if ib < ia then (b, a) else (a, b)
    | _, _ =>
      let ha := (a.conversation_history.getD []).length
      let hb := (b.conversation_history.getD []).length
      if ha < hb then (a, b)
      else if hb < ha then (b, a)
      else
        let ta := (a.tool_invocations.getD []).length
        let tb := (b.tool_invocations.getD []).length
        if ta < tb then (a, b)
        else if tb < ta then (b, a)
        else (a, b)

/-- Checkpoint pair with equal `created_at` and distinct ids: under the
claimed cascade the tie should fall through to the id key. -/
def c3cpA : Checkpoint :=
  { internal_session_id := 1, id := some 2, created_at := some 5 }

/-- Sibling of `c3cpA` with the smaller id. -/
def c3cpB : Checkpoint :=
  { internal_session_id := 1, id := some 1, created_at := some 5 }

/-- C3 counterexample: on two checkpoints with equal `created_at` and ids
2 and 1, the claimed cascade orders the id-1 checkpoint first, but
`_order_checkpoints` resolves the `created_at` tie to the first argument
and never consults the id key, so the report lists id 2 as the older
checkpoint. -/
theorem c3_order_cascade_counterexample :
    _order_checkpoints c3cpA c3cpB ≠ orderCheckpointsSpecCascade c3cpA c3cpB ∧
    (compare_checkpoints c3cpA c3cpB).checkpoint_a_id = some 2 ∧
    (orderCheckpointsSpecCascade c3cpA c3cpB).1.id = some 1 := by
  refine ⟨by decide, by decide, by decide⟩

/-- C3 amended: `compare_checkpoints` orders its two argument checkpoints
older-to-newer by comparing (1) `created_at`, (2) `id`,
(3) `len(conversation_history)`, (4) `len(tool_invocations)`, but it moves
to the next key only when the current key is unavailable (a missing
`created_at` or `id`, or equal lengths), not whenever the comparison is
non-strict: when both values of a key are present, a tie at that key
resolves immediately to the first argument. -/
theorem c3_order_cascade_amended (a b : Checkpoint) :
    _order_checkpoints a b = orderCheckpointsImplCascade a b := by
  unfold _order_checkpoints orderCheckpointsImplCascade
  rcases a.created_at with _ | ca <;> rcases b.created_at with _ | cb <;>
    rcases a.id with _ | ia <;> rcases b.id with _ | ib <;>
      dsimp only <;> split_ifs <;> first | rfl | omega

end AgentGit

namespace AgentGit

/-- Checkpoint with `created_at` 5 and id 1, used to exhibit asymmetry of
`compare_checkpoints` on a `created_at` tie. -/
def c4tieA : Checkpoint :=
  { internal_session_id := 1, id := some 1, created_at := some 5 }

/-- Sibling of `c4tieA` with the same `created_at` and id 2. -/
def c4tieB : Checkpoint :=
  { internal_session_id := 1, id := some 2, created_at := some 5 }

/-- Older checkpoint (by `created_at`) that has one message. -/
def c4negA : Checkpoint :=
  { internal_session_id := 1, id := some 1, created_at := some 1,
    conversation_history := some [JVal.null] }

/-- Newer checkpoint (by `created_at`) with an empty history, so the
directional conversation diff is negative. -/
def c4negB : Checkpoint :=
  { internal_session_id := 1, id := some 2, created_at := some 2,
    conversation_history := some [] }

/-- C4 counterexample: on a `created_at` tie the two argument orders give
different reports (each keeps its first argument as the "older" one), and
when the newer checkpoint (by `created_at`) has fewer messages than the
older, `conversation_diff.messages_added` is negative. -/
theorem c4_diff_symmetry_counterexample :
    compare_checkpoints c4tieA c4tieB ≠ compare_checkpoints c4tieB c4tieA ∧
    (compare_checkpoints c4negA c4negB).conversation_diff.messages_added < 0 := by
  exact ⟨by decide, by decide⟩

/-- C4 amended: for checkpoints that both carry a `created_at` and whose
`created_at` values are distinct, `compare_checkpoints(a, b)` equals
`compare_checkpoints(b, a)`; `checkpoint_a_id` is the id of the
checkpoint with the smaller `created_at` and `checkpoint_b_id` the
other's id, regardless of argument order; and
`conversation_diff.messages_added` equals `len(newer.conversation_history)
- len(older.conversation_history)`, which may be negative. -/
theorem c4_diff_symmetry_amended (a b : Checkpoint) (ta tb : Nat)
    (hta : a.created_at = some ta) (htb : b.created_at = some tb)
    (hne : ta ≠ tb) :
    compare_checkpoints a b = compare_checkpoints b a ∧
    (compare_checkpoints a b).checkpoint_a_id = (if ta < tb then a else b).id ∧
    (compare_checkpoints a b).checkpoint_b_id = (if ta < tb then b else a).id ∧
    (compare_checkpoints a b).conversation_diff.messages_added =
      (((if ta < tb then b else a).conversation_history.getD []).length : Int) -
        (((if ta < tb then a else b).conversation_history.getD []).length : Int) := by
  have hord1 : _order_checkpoints a b = if ta < tb then (a, b) else (b, a) := by
    unfold _order_checkpoints
    rw [hta, htb]
    dsimp only
    split_ifs <;> first | rfl | omega
  have hord2 : _order_checkpoints b a = if ta < tb then (a, b) else (b, a) := by
    unfold _order_checkpoints
    rw [hta, htb]
    dsimp only
    split_ifs <;> first | rfl | omega
  refine ⟨?_, ?_, ?_, ?_⟩
  · unfold compare_checkpoints
    rw [hord1, hord2]
  · unfold compare_checkpoints
    rw [hord1]
    by_cases h : ta < tb <;> simp [h]
  · unfold compare_checkpoints
    rw [hord1]
    by_cases h : ta < tb <;> simp [h]
  · unfold compare_checkpoints
    rw [hord1]
    by_cases h : ta < tb <;> simp [h, _compare_conversations]

/-- Concrete checkpoint with `created_at` 1 and one message. -/
def c4wA : Checkpoint :=
  { internal_session_id := 1, id := some 7, created_at := some 1,
    conversation_history := some [JVal.null] }

/-- Concrete checkpoint with `created_at` 2 and no messages. -/
def c4wB : Checkpoint :=
  { internal_session_id := 1, id := some 8, created_at := some 2 }

/-- Witness for the amended C4 theorem at two concrete checkpoints with
distinct `created_at` values. -/
theorem c4_diff_symmetry_amended_witness :
    compare_checkpoints c4wA c4wB = compare_checkpoints c4wB c4wA ∧
    (compare_checkpoints c4wA c4wB).checkpoint_a_id =
      (if 1 < 2 then c4wA else c4wB).id ∧
    (compare_checkpoints c4wA c4wB).checkpoint_b_id =
      (if 1 < 2 then c4wB else c4wA).id ∧
    (compare_checkpoints c4wA c4wB).conversation_diff.messages_added =
      (((if 1 < 2 then c4wB else c4wA).conversation_history.getD []).length : Int) -
        (((if 1 < 2 then c4wA else c4wB).conversation_history.getD []).length : Int) :=
  c4_diff_symmetry_amended c4wA c4wB 1 2 rfl rfl (by decide)

/-- Element-wise description of `_compare_tool_invocations`: entry `i` of
the result is the record of the new list at absolute index
`len(old_tools) + i`, re-indexed to that absolute position. -/
theorem compare_tool_invocations_getElem
    (old_tools new_tools : List ToolRecord) (i : Nat) :
    (_compare_tool_invocations old_tools new_tools)[i]? =
      (new_tools[old_tools.length + i]?).map
        (toolChangeOfRecord (old_tools.length + i)) := by
  unfold _compare_tool_invocations
  dsimp only
  rw [List.getElem?_map, List.getElem?_enum, List.getElem?_drop]
  cases new_tools[old_tools.length + i]? <;> rfl

/-- C7: the `tool_invocations` section of a diff report contains exactly
the records of the newer checkpoint (second component of the internal
older-to-newer ordering) at indices from `len(older.tool_invocations)`
inclusive to `len(newer.tool_invocations)` exclusive, in order, each
re-indexed to its absolute position in the newer checkpoint's list. -/
theorem c7_tool_invocation_window (a b : Checkpoint) :
    (∀ i : Nat,
      ((compare_checkpoints a b).tool_invocations)[i]? =
        (((_order_checkpoints a b).2.tool_invocations.getD
            [])[((_order_checkpoints a b).1.tool_invocations.getD []).length + i]?).map
          (toolChangeOfRecord
            (((_order_checkpoints a b).1.tool_invocations.getD []).length + i))) ∧
    ((compare_checkpoints a b).tool_invocations).length =
      ((_order_checkpoints a b).2.tool_invocations.getD []).length -
        ((_order_checkpoints a b).1.tool_invocations.getD []).length := by
  constructor
  · intro i
    show (_compare_tool_invocations _ _)[i]? = _
    rw [compare_tool_invocations_getElem]
  · show (_compare_tool_invocations _ _).length = _
    unfold _compare_tool_invocations
    simp

end AgentGit

namespace AgentGit

/-! ## Embedding of the persistence layer

A database table is a list of rows; `runTx` models the
`get_db_connection` context manager of `db_config.py`: the body's writes
are committed when the transaction succeeds, and rolled back (the state
is left untouched) when it raises, the session being closed either way.
A `fault` flag injects a `PersistenceFailure` of the underlying store
into one transaction. -/

/-- Transaction semantics of `get_db_connection`: commit on success,
rollback on exception (the pre-transaction state is kept and the error is
re-raised), close always. -/
def runTx (fault : Bool) (body : σ → σ × α) (st : σ) : σ × Except Unit α :=
  if fault then (st, .error ())
  else
    let r := body st
    (r.1, .ok r.2)

/-- Row of the `internal_sessions` table (`InternalSession` in
`models.py`, imported as `InternalSessionModel` by the repository). -/
structure InternalSessionModel where
  id : Nat
  external_session_id : Nat
  langgraph_session_id : String
  state_data : JObj
  conversation_history : List JVal
  created_at : Nat
  is_current : Bool
  checkpoint_count : Nat
  parent_session_id : Option Nat
  branch_point_checkpoint_id : Option Nat
  tool_invocation_count : Nat
  session_metadata : JObj
  deriving DecidableEq

/-- In-memory internal session object. Modelled from the spec: the
dataclass `agentgit.sessions.internal_session.InternalSession` is not
part of the sources; its attributes are the ones the repository reads
(`id`, `external_session_id`, `langgraph_session_id`, `session_state`,
`conversation_history`, `created_at`, `is_current`, `checkpoint_count`,
`parent_session_id`, `branch_point_checkpoint_id`,
`tool_invocation_count`, `metadata`). -/
structure InternalSession where
  id : Option Nat := none
  external_session_id : Nat
  langgraph_session_id : String := ""
  session_state : JObj := .nil
  conversation_history : List JVal := []
  created_at : Option Nat := none
  is_current : Bool := false
  checkpoint_count : Nat := 0
  parent_session_id : Option Nat := none
  branch_point_checkpoint_id : Option Nat := none
  tool_invocation_count : Nat := 0
  metadata : JObj := .nil
  deriving DecidableEq

/-- Autoincrement id allocation: one more than the largest id in the
table (monotonic integer keys assigned by the persistence layer). -/
def nextId (db : List InternalSessionModel) : Nat :=
  (db.foldr (fun r m => max r.id m) 0) + 1

/-- Convert a database row to an `InternalSession` object
(`_row_to_session`; the `isinstance` guards are identities on typed
columns). -/
def _row_to_session (r : InternalSessionModel) : InternalSession :=
  { id := some r.id
    external_session_id := r.external_session_id
    langgraph_session_id := r.langgraph_session_id
    session_state := r.state_data
    conversation_history := r.conversation_history
    created_at := some r.created_at
    is_current := r.is_current
    checkpoint_count := r.checkpoint_count
    parent_session_id := r.parent_session_id
    branch_point_checkpoint_id := r.branch_point_checkpoint_id
    tool_invocation_count := r.tool_invocation_count
    metadata := r.session_metadata }

/-- Row transformation of `_mark_all_not_current`: clear `is_current` on
a row of the targeted external session, except the excluded id when the
excluded id is truthy (Python `if exclude_id:`). -/
def markRow (external_session_id : Nat) (exclude_id : Option Nat)
    (r : InternalSessionModel) : InternalSessionModel :=
  if r.external_session_id = external_session_id ∧
      (pyTruthy exclude_id = true → r.id ≠ exclude_id.getD 0) then
    { r with is_current := false }
  else r

/-- Bulk update of `_mark_all_not_current`: apply `markRow` to every row
(the ORM `query.update` over the filtered rows). -/
def _mark_all_not_current (external_session_id : Nat) (exclude_id : Option Nat)
    (db : List InternalSessionModel) : List InternalSessionModel :=
  db.map (markRow external_session_id exclude_id)

/-- Mutate the first row satisfying the predicate (the ORM pattern
`query.filter_by(id=...).first()` followed by attribute assignment);
returns the new table and whether a row was found. -/
def updateFirst (p : α → Bool) (f : α → α) :
    List α → List α × Bool
  | [] => ([], false)
  | x :: xs =>
    if p x then (f x :: xs, true)
    else
      let r := updateFirst p f xs
      (x :: r.1, r.2)

/-- Copy the updatable fields of `InternalSessionRepository.update` from
the in-memory object onto a row: `state_data`, `conversation_history`,
`is_current`, `checkpoint_count`, `tool_invocation_count` and
`session_metadata`. -/
def applySessionFields (s : InternalSession) (r : InternalSessionModel) :
    InternalSessionModel :=
  { r with
    state_data := s.session_state
    conversation_history := s.conversation_history
    is_current := s.is_current
    checkpoint_count := s.checkpoint_count
    tool_invocation_count := s.tool_invocation_count
    session_metadata := s.metadata }

namespace InternalSessionRepository

/-- Row built by the insert transaction of
`InternalSessionRepository.create`: the flush allocates the id and fires
the `created_at` column default (`now`). -/
def insertedRow (session : InternalSession) (now : Nat)
    (st : List InternalSessionModel) : InternalSessionModel :=
  { id := nextId st
    external_session_id := session.external_session_id
    langgraph_session_id := session.langgraph_session_id
    state_data := session.session_state
    conversation_history := session.conversation_history
    created_at := now
    is_current := session.is_current
    checkpoint_count := session.checkpoint_count
    parent_session_id := session.parent_session_id
    branch_point_checkpoint_id := session.branch_point_checkpoint_id
    tool_invocation_count := session.tool_invocation_count
    session_metadata := session.metadata }

/-- Insert transaction of `InternalSessionRepository.create`: flush
allocates the id, the `created_at` column default fires (`now`), and the
new row is committed. Returns the allocated id. -/
def insertTx (fault : Bool) (session : InternalSession) (now : Nat)
    (db : List InternalSessionModel) :
    List InternalSessionModel × Except Unit Nat :=
  runTx fault
    (fun st => (st ++ [insertedRow session now st], nextId st))
    db

/-- `InternalSessionRepository.create`: when the object is current, first
clear siblings in one transaction, then insert in a second transaction.
`fmark` and `fins` inject a store failure into the respective
transaction. -/
def create (fmark fins : Bool) (session : InternalSession) (now : Nat)
    (db : List InternalSessionModel) :
    List InternalSessionModel × Except Unit Nat :=
  if session.is_current then
    let t1 := runTx fmark
      (fun st =>
        (_mark_all_not_current session.external_session_id none st, ())) db
    match t1.2 with
    | .error e => (t1.1, .error e)
    | .ok _ => insertTx fins session now t1.1
  else insertTx fins session now db

/-- `InternalSessionRepository.update`: falsy id returns `False` without
touching the store; otherwise clear siblings of the object's
`external_session_id` (excluding the object's id) in one transaction when
the object is current, then copy the updatable fields onto the first row
with the object's id in a second transaction. -/
def update (fmark fupd : Bool) (session : InternalSession)
    (db : List InternalSessionModel) :
    List InternalSessionModel × Except Unit Bool :=
  if pyTruthy session.id = false then (db, .ok false)
  else
    let step1 :=
      if session.is_current then
        runTx fmark
          (fun st =>
            (_mark_all_not_current session.external_session_id session.id st,
              ())) db
      else (db, .ok ())
    match step1.2 with
    | .error e => (step1.1, .error e)
    | .ok _ =>
      runTx fupd
        (fun st =>
          updateFirst (fun r => r.id == session.id.getD 0)
            (applySessionFields session) st)
        step1.1

/-- `InternalSessionRepository.set_current_session`: three transactions —
read the session by id (via `get_by_id`), clear all siblings of its
external session, then set the target row current. -/
def set_current_session (f1 f2 f3 : Bool) (session_id : Nat)
    (db : List InternalSessionModel) :
    List InternalSessionModel × Except Unit Bool :=
  let t1 := runTx f1
    (fun st =>
      (st, (st.find? (fun r => r.id == session_id)).map _row_to_session)) db
  match t1.2 with
  | .error e => (t1.1, .error e)
  | .ok none => (t1.1, .ok false)
  | .ok (some session) =>
    let t2 := runTx f2
      (fun st =>
        (_mark_all_not_current session.external_session_id none st, ())) t1.1
    match t2.2 with
    | .error e => (t2.1, .error e)
    | .ok _ =>
      runTx f3
        (fun st =>
          updateFirst (fun r => r.id == session_id)
            (fun r => { r with is_current := true }) st)
        t2.1

/-- `InternalSessionRepository.delete`: one transaction that removes the
first row with the given id. -/
def delete (fault : Bool) (session_id : Nat)
    (db : List InternalSessionModel) :
    List InternalSessionModel × Except Unit Bool :=
  runTx fault
    (fun st =>
      match st.find? (fun r => r.id == session_id) with
      | some _ => (st.filter (fun r => !(r.id == session_id)), true)
      | none => (st, false))
    db

end InternalSessionRepository

/-- Fault-free run of `InternalSessionRepository.create`. -/
def createRun (session : InternalSession) (now : Nat)
    (db : List InternalSessionModel) : List InternalSessionModel :=
  (InternalSessionRepository.create false false session now db).1

/-- Fault-free run of `InternalSessionRepository.update`. -/
def updateRun (session : InternalSession)
    (db : List InternalSessionModel) : List InternalSessionModel :=
  (InternalSessionRepository.update false false session db).1

/-- Fault-free run of `InternalSessionRepository.set_current_session`. -/
def setCurrentRun (session_id : Nat)
    (db : List InternalSessionModel) : List InternalSessionModel :=
  (InternalSessionRepository.set_current_session false false false session_id db).1

end AgentGit

namespace AgentGit

/-- Row membership after `updateFirst`: every result row is an original
row or the image of an original row that matched the predicate. -/
theorem mem_updateFirst {p : α → Bool} {f : α → α} {l : List α} {y : α}
    (h : y ∈ (updateFirst p f l).1) :
    y ∈ l ∨ ∃ z, z ∈ l ∧ p z = true ∧ y = f z := by
  induction l with
  | nil => simp [updateFirst] at h
  | cons x xs ih =>
    by_cases hp : p x
    · simp [updateFirst, hp] at h
      rcases h with h | h
      · exact .inr ⟨x, by simp, hp, h⟩
      · exact .inl (by simp [h])
    · simp [updateFirst, hp] at h
      rcases h with h | h
      · exact .inl (by simp [h])
      · rcases ih h with h2 | ⟨z, hz, hpz, hyz⟩
        · exact .inl (by simp [h2])
        · exact .inr ⟨z, by simp [hz], hpz, hyz⟩

/-- When no row matches, `updateFirst` is the identity and reports no
match. -/
theorem updateFirst_not_found {p : α → Bool} {f : α → α} {l : List α}
    (h : ∀ y ∈ l, ¬ p y) : updateFirst p f l = (l, false) := by
  induction l with
  | nil => rfl
  | cons x xs ih =>
    have hx : ¬ p x := h x (by simp)
    simp only [updateFirst, if_neg hx]
    rw [ih (fun y hy => h y (by simp [hy]))]

/-- When the list splits at the first matching row, `updateFirst`
replaces exactly that row. -/
theorem updateFirst_append_split (p : α → Bool) (f : α → α)
    (l₁ l₂ : List α) (x : α) (h₁ : ∀ y ∈ l₁, ¬ p y) (hx : p x) :
    updateFirst p f (l₁ ++ x :: l₂) = (l₁ ++ f x :: l₂, true) := by
  induction l₁ with
  | nil => simp [updateFirst, hx]
  | cons a l ih =>
    have ha : ¬ p a := h₁ a (by simp)
    have ih2 := ih (fun y hy => h₁ y (by simp [hy]))
    simp [updateFirst, ha, ih2]

/-- A successful `find?` splits the list at the found element, with no
match before it. -/
theorem find?_split {p : α → Bool} {l : List α} {x : α}
    (h : l.find? p = some x) :
    ∃ l₁ l₂, l = l₁ ++ x :: l₂ ∧ ∀ y ∈ l₁, ¬ p y := by
  induction l with
  | nil => simp at h
  | cons a l ih =>
    by_cases hp : p a
    · refine ⟨[], l, ?_, by simp⟩
      rw [List.find?_cons_of_pos _ hp] at h
      simp at h
      simp [h]
    · rw [List.find?_cons_of_neg _ hp] at h
      rcases ih h with ⟨l₁, l₂, rfl, hnone⟩
      exact ⟨a :: l₁, l₂, rfl, by
        intro y hy
        rcases List.mem_cons.mp hy with rfl | hy2
        · exact hp
        · exact hnone y hy2⟩

/-- A key function left invariant by the replacement is left invariant by
`updateFirst` on the whole table. -/
theorem updateFirst_map_key (p : α → Bool) (f : α → α) (key : α → β)
    (hf : ∀ r, key (f r) = key r) (l : List α) :
    ((updateFirst p f l).1).map key = l.map key := by
  induction l with
  | nil => rfl
  | cons x xs ih =>
    by_cases hp : p x
    · simp [updateFirst, hp, hf]
    · simp [updateFirst, hp, ih]

/-- Pairwise preservation through `updateFirst`: it suffices that every
related pair stays related when the matching side is replaced. -/
theorem pairwise_updateFirst {p : α → Bool} {f : α → α} {R : α → α → Prop}
    {l : List α}
    (h : List.Pairwise (fun a b => R a b ∧ (p a → R (f a) b) ∧ (p b → R a (f b))) l) :
    List.Pairwise R (updateFirst p f l).1 := by
  induction l with
  | nil => exact List.Pairwise.nil
  | cons x xs ih =>
    rcases List.pairwise_cons.mp h with ⟨hx, hxs⟩
    by_cases hp : p x
    · simp only [updateFirst, if_pos hp]
      refine List.pairwise_cons.mpr ⟨fun y hy => (hx y hy).2.1 hp, ?_⟩
      exact hxs.imp (fun hab => hab.1)
    · simp only [updateFirst, if_neg hp]
      refine List.pairwise_cons.mpr ⟨?_, ih hxs⟩
      intro y hy
      rcases mem_updateFirst hy with hmem | ⟨z, hz, hpz, rfl⟩
      · exact (hx y hmem).1
      · exact (hx z hz).2.2 hpz

end AgentGit

namespace AgentGit

/-- Number of rows of external session `e` whose `is_current` flag is
set. -/
def currentCount (db : List InternalSessionModel) (e : Nat) : Nat :=
  (db.filter (fun r => r.external_session_id == e && r.is_current)).length

/-- Current-uniqueness invariant of the data model: every external
session has at most one current internal session. -/
def CurrentUnique (db : List InternalSessionModel) : Prop :=
  ∀ e, currentCount db e ≤ 1

/-- Two rows are not both current members of the same external session. -/
def NotBothCurrent (r1 r2 : InternalSessionModel) : Prop :=
  r1.external_session_id = r2.external_session_id →
    ¬(r1.is_current = true ∧ r2.is_current = true)

/-- The counting form of the invariant coincides with its pairwise
form. -/
theorem currentUnique_iff_pairwise (db : List InternalSessionModel) :
    CurrentUnique db ↔ List.Pairwise NotBothCurrent db := by
  induction db with
  | nil => simp [CurrentUnique, currentCount]
  | cons r l ih =>
    constructor
    · intro h
      refine List.pairwise_cons.mpr ⟨?_, ?_⟩
      · intro y hy hext ⟨hcr, hcy⟩
        have h1 := h r.external_session_id
        have hcount : 2 ≤ currentCount (r :: l) r.external_session_id := by
          have hsub : [r, y].Sublist (r :: l) :=
            List.cons_sublist_cons.mpr (List.singleton_sublist.mpr hy)
          have : ([r, y].filter
              (fun x => x.external_session_id == r.external_session_id && x.is_current)).length ≤
              currentCount (r :: l) r.external_session_id :=
            List.Sublist.length_le (List.Sublist.filter _ hsub)
          simpa [hcr, hcy, ← hext] using this
        omega
      · refine (ih.mp ?_)
        intro e
        have := h e
        have hmono : currentCount l e ≤ currentCount (r :: l) e := by
          by_cases hc : (r.external_session_id == e && r.is_current) = true <;>
            simp [currentCount, List.filter_cons, hc]
        omega
    · intro h
      rcases List.pairwise_cons.mp h with ⟨hr, hl⟩
      intro e
      by_cases hc : (r.external_session_id == e && r.is_current) = true
      · have hre : r.external_session_id = e := by
          simpa using (Bool.and_elim_left hc)
        have hrc : r.is_current = true := by
          simpa using (Bool.and_elim_right hc)
        have hzero : currentCount l e = 0 := by
          unfold currentCount
          rw [List.length_eq_zero, List.filter_eq_nil_iff]
          intro y hy hcon
          have hye : y.external_session_id = e := by
            simpa using (Bool.and_elim_left hcon)
          have hyc : y.is_current = true := by
            simpa using (Bool.and_elim_right hcon)
          exact hr y hy (by rw [hre, hye]) ⟨hrc, hyc⟩
        unfold currentCount at hzero ⊢
        simp only [List.filter_cons, hc, if_pos]
        simp [hzero]
      · have hle := (ih.mpr hl) e
        unfold currentCount at hle ⊢
        simpa [List.filter_cons, hc] using hle

/-- Every row produced by `_mark_all_not_current` is an original row,
either untouched or with its `is_current` flag cleared. -/
theorem mark_all_mem (ext : Nat) (ex : Option Nat)
    (db : List InternalSessionModel) (y : InternalSessionModel)
    (hy : y ∈ _mark_all_not_current ext ex db) :
    ∃ z ∈ db, y = z ∨ y = { z with is_current := false } := by
  rcases List.mem_map.mp hy with ⟨z, hz, rfl⟩
  refine ⟨z, hz, ?_⟩
  unfold markRow
  by_cases hc : z.external_session_id = ext ∧ (pyTruthy ex = true → z.id ≠ ex.getD 0)
  · exact .inr (by rw [if_pos hc])
  · exact .inl (by rw [if_neg hc])

/-- Rows of the targeted external session, other than the excluded id,
are cleared by `_mark_all_not_current`. -/
theorem mark_all_cleared (ext : Nat) (ex : Option Nat)
    (db : List InternalSessionModel) (y : InternalSessionModel)
    (hy : y ∈ _mark_all_not_current ext ex db)
    (hext : y.external_session_id = ext)
    (hid : pyTruthy ex = true → y.id ≠ ex.getD 0) :
    y.is_current = false := by
  rcases List.mem_map.mp hy with ⟨z, hz, rfl⟩
  unfold markRow at hext hid ⊢
  by_cases hc : z.external_session_id = ext ∧ (pyTruthy ex = true → z.id ≠ ex.getD 0)
  · rw [if_pos hc]
  · rw [if_neg hc] at hext hid
    exact absurd ⟨hext, hid⟩ hc

end AgentGit

namespace AgentGit

/-- Row of the `checkpoints` table (`Checkpoint` in `models.py`, imported
as `CheckpointModel` by the repository). -/
structure CheckpointModel where
  id : Nat
  internal_session_id : Nat
  checkpoint_name : String
  checkpoint_data : JObj
  is_auto : Bool
  created_at : Nat
  user_id : Option Nat
  deriving DecidableEq

/-- Autoincrement id allocation for the checkpoints table. -/
def cpNextId (db : List CheckpointModel) : Nat :=
  (db.foldr (fun r m => max r.id m) 0) + 1

/-- Encode a list of JSON values as a JSON array. -/
def listToJArr : List JVal → JArr
  | [] => .nil
  | v :: vs => .cons v (listToJArr vs)

/-- Decode a JSON array into a list of JSON values. -/
def jarrToList : JArr → List JVal
  | .nil => []
  | .cons v vs => v :: jarrToList vs

/-- Prepend a binding when the optional value is present (serialization
of a dict field that may be missing). -/
def consIfSome (k : String) (v : Option JVal) (rest : JObj) : JObj :=
  match v with
  | some v0 => .cons k v0 rest
  | none => rest

/-- Modelled from the spec: serialization of one tool-invocation record
(dict with keys present only when set). -/
def toolRecordToJVal (r : ToolRecord) : JVal :=
  .obj (consIfSome "tool_name" (r.tool_name.map .str)
    (consIfSome "tool" (r.tool.map .str)
      (consIfSome "args" (r.args.map .obj)
        (consIfSome "result" (r.result.map .str)
          (consIfSome "success" (r.success.map .bool)
            (consIfSome "error_message" (r.error_message.map .str) .nil))))))

/-- Modelled from the spec: deserialization of one tool-invocation
record. -/
def jvalToToolRecord (v : JVal) : ToolRecord :=
  match v with
  | .obj o =>
    { tool_name := (o.get "tool_name").bind fun x => match x with | .str s => some s | _ => none
      tool := (o.get "tool").bind fun x => match x with | .str s => some s | _ => none
      args := (o.get "args").bind fun x => match x with | .obj a => some a | _ => none
      result := (o.get "result").bind fun x => match x with | .str s => some s | _ => none
      success := (o.get "success").bind fun x => match x with | .bool b => some b | _ => none
      error_message := (o.get "error_message").bind fun x => match x with | .str s => some s | _ => none }
  | _ => {}

/-- Modelled from the spec: `Checkpoint.to_dict` builds the JSON payload
embedding `session_state`, `conversation_history`, `tool_invocations`,
`metadata` and the serialized `created_at` (ISO-8601), together with the
identifying attributes. -/
def Checkpoint.to_dict (cp : Checkpoint) : JObj :=
  .cons "id" (match cp.id with | some n => .num n | none => .null)
    (.cons "internal_session_id" (.num cp.internal_session_id)
      (.cons "checkpoint_name" (.str cp.checkpoint_name)
        (.cons "session_state" (.obj (cp.session_state.getD .nil))
          (.cons "conversation_history" (.arr (listToJArr (cp.conversation_history.getD [])))
            (.cons "tool_invocations"
              (.arr (listToJArr ((cp.tool_invocations.getD []).map toolRecordToJVal)))
              (.cons "created_at"
                (match cp.created_at with
                 | some t => .str (isoformat t)
                 | none => .null)
                (.cons "is_auto" (.bool cp.is_auto)
                  (.cons "user_id" (match cp.user_id with | some n => .num n | none => .null)
                    (.cons "metadata" (.obj (cp.metadata.getD .nil)) .nil)))))))))

/-- Modelled from the spec: `Checkpoint.from_dict` rebuilds a checkpoint
object from its JSON payload (the inverse reading of `to_dict`). -/
def Checkpoint.from_dict (d : JObj) : Checkpoint :=
  { id := (d.get "id").bind fun x => match x with
      | .num n => if 0 ≤ n then some n.toNat else none
      | _ => none
    internal_session_id :=
      (((d.get "internal_session_id").bind fun x => match x with
        | .num n => if 0 ≤ n then some n.toNat else none
        | _ => none).getD 0)
    checkpoint_name := (((d.get "checkpoint_name").bind fun x => match x with
      | .str s => some s
      | _ => none).getD "")
    session_state := (d.get "session_state").bind fun x => match x with
      | .obj o => some o
      | _ => none
    conversation_history := (d.get "conversation_history").bind fun x => match x with
      | .arr a => some (jarrToList a)
      | _ => none
    tool_invocations := (d.get "tool_invocations").bind fun x => match x with
      | .arr a => some ((jarrToList a).map jvalToToolRecord)
      | _ => none
    created_at := (d.get "created_at").bind parseIso
    is_auto := (((d.get "is_auto").bind fun x => match x with
      | .bool b => some b
      | _ => none).getD false)
    user_id := (d.get "user_id").bind fun x => match x with
      | .num n => if 0 ≤ n then some n.toNat else none
      | _ => none
    metadata := (d.get "metadata").bind fun x => match x with
      | .obj o => some o
      | _ => none }

/-- Python dict merge `base.update(upd)`: apply each binding of `upd` to
`base` in order. -/
def jobjUpdate (base : JObj) : JObj → JObj
  | .nil => base
  | .cons k v rest => jobjUpdate (base.set k v) rest

/-- Descending `(created_at, id)` ordering used by the checkpoint
listings (`ORDER BY created_at DESC, id DESC`). -/
def rowDescLe (a b : CheckpointModel) : Prop :=
  b.created_at < a.created_at ∨
    (a.created_at = b.created_at ∧ b.id ≤ a.id)

instance : DecidableRel rowDescLe := fun a b => by
  unfold rowDescLe; infer_instance

instance : IsTotal CheckpointModel rowDescLe := ⟨by
  intro a b
  unfold rowDescLe
  omega⟩

instance : IsTrans CheckpointModel rowDescLe := ⟨by
  intro a b c
  unfold rowDescLe
  omega⟩

/-- Convert a checkpoint row to a `Checkpoint` object
(`_row_to_checkpoint`): rebuild from the JSON payload, then force the id
from the column. -/
def _row_to_checkpoint (r : CheckpointModel) : Checkpoint :=
  { Checkpoint.from_dict r.checkpoint_data with id := some r.id }

namespace CheckpointRepository

/-- `CheckpointRepository.create`: one transaction that serializes the
object, flushes (allocating the id and firing the `created_at` column
default `now`), then patches the payload's `created_at` from the column
read-back and re-flags the JSON column dirty, so the commit persists the
patched payload (the guard `if db_checkpoint.created_at:` always holds
because the column default fired at flush). Returns the allocated id. -/
def create (fault : Bool) (cp : Checkpoint) (now : Nat)
    (db : List CheckpointModel) : List CheckpointModel × Except Unit Nat :=
  runTx fault
    (fun st =>
      let checkpoint_dict := cp.to_dict
      let rid := cpNextId st
      let patched := checkpoint_dict.set "created_at" (.str (isoformat now))
      let row : CheckpointModel :=
        { id := rid
          internal_session_id := cp.internal_session_id
          checkpoint_name := cp.checkpoint_name
          checkpoint_data := patched
          is_auto := cp.is_auto
          created_at := now
          user_id := cp.user_id }
      (st ++ [row], rid))
    db

/-- Rows returned by `get_by_internal_session`: filter by internal
session (and `is_auto` when `auto_only`), then `ORDER BY created_at DESC,
id DESC`. -/
def get_by_internal_session_rows (db : List CheckpointModel) (sid : Nat)
    (auto_only : Bool) : List CheckpointModel :=
  let q := db.filter (fun r => r.internal_session_id == sid)
  let q2 := if auto_only then q.filter (fun r => r.is_auto) else q
  List.insertionSort rowDescLe q2

/-- `CheckpointRepository.get_by_internal_session`. -/
def get_by_internal_session (db : List CheckpointModel) (sid : Nat)
    (auto_only : Bool) : List Checkpoint :=
  (get_by_internal_session_rows db sid auto_only).map _row_to_checkpoint

/-- `CheckpointRepository.get_latest_checkpoint`: same filter and order as
the listing, taking the first row. -/
def get_latest_checkpoint (db : List CheckpointModel) (sid : Nat) :
    Option Checkpoint :=
  ((List.insertionSort rowDescLe
      (db.filter (fun r => r.internal_session_id == sid))).head?).map
    _row_to_checkpoint

/-- Rows returned by `get_by_user`: filter by user, order descending,
and apply the limit when it is truthy (Python `if limit:`). -/
def get_by_user_rows (db : List CheckpointModel) (user_id : Nat)
    (limit : Option Nat) : List CheckpointModel :=
  let q := List.insertionSort rowDescLe
    (db.filter (fun r => r.user_id == some user_id))
  if pyTruthy limit then q.take (limit.getD 0) else q

/-- `CheckpointRepository.get_by_user`. -/
def get_by_user (db : List CheckpointModel) (user_id : Nat)
    (limit : Option Nat) : List Checkpoint :=
  (get_by_user_rows db user_id limit).map _row_to_checkpoint

/-- `CheckpointRepository.delete`: one transaction removing the row with
the given id when present. -/
def delete (fault : Bool) (checkpoint_id : Nat)
    (db : List CheckpointModel) : List CheckpointModel × Except Unit Bool :=
  runTx fault
    (fun st =>
      match st.find? (fun r => r.id == checkpoint_id) with
      | some _ => (st.filter (fun r => !(r.id == checkpoint_id)), true)
      | none => (st, false))
    db

/-- `CheckpointRepository.delete_auto_checkpoints`: one transaction that
selects the ids of the `keep_latest` most recent auto-checkpoints of the
session, then deletes the session's auto-checkpoints outside that id list
(all of them when the keep list is empty, per Python `if keep_ids:`),
returning the deleted row count. -/
def delete_auto_checkpoints (fault : Bool) (sid keep_latest : Nat)
    (db : List CheckpointModel) : List CheckpointModel × Except Unit Nat :=
  runTx fault
    (fun st =>
      let keep := (List.insertionSort rowDescLe
        (st.filter (fun r => r.internal_session_id == sid && r.is_auto))).take keep_latest
      let keep_ids := keep.map (fun r => r.id)
      if keep_ids ≠ [] then
        let pred := fun (r : CheckpointModel) =>
          r.internal_session_id == sid && r.is_auto && !(keep_ids.contains r.id)
        (st.filter (fun r => !(pred r)), (st.filter pred).length)
      else
        let pred := fun (r : CheckpointModel) =>
          r.internal_session_id == sid && r.is_auto
        (st.filter (fun r => !(pred r)), (st.filter pred).length))
    db

/-- `CheckpointRepository.update_checkpoint_metadata`: a read transaction
fetching the checkpoint, then (when found) a write transaction storing
the re-serialized object with the merged metadata. -/
def update_checkpoint_metadata (f1 f2 : Bool) (checkpoint_id : Nat)
    (metadata : JObj) (db : List CheckpointModel) :
    List CheckpointModel × Except Unit Bool :=
  let t1 := runTx f1
    (fun st =>
      (st, (st.find? (fun r => r.id == checkpoint_id)).map _row_to_checkpoint)) db
  match t1.2 with
  | .error e => (t1.1, .error e)
  | .ok none => (t1.1, .ok false)
  | .ok (some checkpoint) =>
    let merged : Checkpoint :=
      { checkpoint with
        metadata := some (jobjUpdate (checkpoint.metadata.getD .nil) metadata) }
    let checkpoint_dict := merged.to_dict
    runTx f2
      (fun st =>
        updateFirst (fun r => r.id == checkpoint_id)
          (fun r => { r with checkpoint_data := checkpoint_dict }) st)
      t1.1

end CheckpointRepository

end AgentGit

namespace AgentGit

/-- Reading back the key just assigned on a JSON object yields the
assigned value. -/
theorem JObj.get_set : ∀ (o : JObj) (k : String) (v : JVal),
    (o.set k v).get k = some v
  | .nil, k, v => by simp [JObj.set, JObj.get]
  | .cons k0 v0 rest, k, v => by
    by_cases h : k0 = k
    · simp [JObj.set, JObj.get, h]
    · simp [JObj.set, JObj.get, h, JObj.get_set rest k v]

/-- C5: after `CheckpointRepository.create` the table gained exactly one
row; its `created_at` column is the flush-time default, and the JSON
payload's `created_at` equals the column rendered in serialized (ISO)
form, because the payload is patched from the column read-back and
re-flagged dirty within the same transaction. -/
theorem c5_created_at_coherence (cp : Checkpoint) (now : Nat)
    (db : List CheckpointModel) :
    ∃ row : CheckpointModel,
      (CheckpointRepository.create false cp now db).1 = db ++ [row] ∧
      (CheckpointRepository.create false cp now db).2 = .ok row.id ∧
      row.created_at = now ∧
      row.checkpoint_data.get "created_at" =
        some (.str (isoformat row.created_at)) := by
  refine ⟨{ id := cpNextId db
            internal_session_id := cp.internal_session_id
            checkpoint_name := cp.checkpoint_name
            checkpoint_data := (cp.to_dict).set "created_at" (.str (isoformat now))
            is_auto := cp.is_auto
            created_at := now
            user_id := cp.user_id }, rfl, rfl, rfl, ?_⟩
  exact JObj.get_set _ _ _

/-- C9: `get_latest_checkpoint` is the head of the
`get_by_internal_session` listing, and is `None` exactly when that
listing is empty. -/
theorem c9_latest_checkpoint_agreement (db : List CheckpointModel)
    (sid : Nat) :
    CheckpointRepository.get_latest_checkpoint db sid =
      (CheckpointRepository.get_by_internal_session db sid false).head? ∧
    (CheckpointRepository.get_latest_checkpoint db sid = none ↔
      CheckpointRepository.get_by_internal_session db sid false = []) := by
  constructor
  · unfold CheckpointRepository.get_latest_checkpoint
      CheckpointRepository.get_by_internal_session
      CheckpointRepository.get_by_internal_session_rows
    simp [List.head?_map]
  · unfold CheckpointRepository.get_latest_checkpoint
      CheckpointRepository.get_by_internal_session
      CheckpointRepository.get_by_internal_session_rows
    simp

/-- Sum of the lengths of a filter and of the complementary filter. -/
theorem length_filter_not_add (l : List α) (p : α → Bool) :
    (l.filter p).length + (l.filter (fun x => !(p x))).length = l.length := by
  induction l with
  | nil => rfl
  | cons a l ih =>
    by_cases h : p a <;> simp [List.filter_cons, h] <;> omega

/-- Auto-checkpoints of an internal session, as filtered by the pruning
query. -/
def autosOf (db : List CheckpointModel) (sid : Nat) : List CheckpointModel :=
  db.filter (fun r => r.internal_session_id == sid && r.is_auto)

/-- Ids of the `n` most recent auto-checkpoints (by `created_at DESC,
id DESC`) of an internal session. -/
def keepIdsOf (db : List CheckpointModel) (sid n : Nat) : List Nat :=
  ((List.insertionSort rowDescLe (autosOf db sid)).take n).map (fun r => r.id)

/-- A fault-free transaction commits the body's result. -/
theorem runTx_false (body : σ → σ × α) (st : σ) :
    runTx false body st = ((body st).1, .ok (body st).2) := rfl

/-- The pruning operation rewrites the table to the complement filter of
the deletion predicate and returns the matching count. -/
theorem delete_auto_checkpoints_eq (db : List CheckpointModel)
    (sid n : Nat) :
    CheckpointRepository.delete_auto_checkpoints false sid n db =
      ((db.filter (fun r => !(r.internal_session_id == sid && r.is_auto &&
          !((keepIdsOf db sid n).contains r.id)))),
        .ok ((db.filter (fun r => r.internal_session_id == sid && r.is_auto &&
          !((keepIdsOf db sid n).contains r.id))).length)) := by
  unfold CheckpointRepository.delete_auto_checkpoints
  rw [runTx_false]
  unfold keepIdsOf autosOf
  dsimp only
  by_cases h : (List.map (fun r => r.id)
      (List.take n
        (List.insertionSort rowDescLe
          (List.filter (fun r => r.internal_session_id == sid && r.is_auto) db)))) ≠ []
  · rw [if_pos h]
  · rw [if_neg h]
    push_neg at h
    rw [h]
    simp

end AgentGit

namespace AgentGit

/-- C6: `delete_auto_checkpoints(sid, keep_latest=n)` deletes exactly the
auto-checkpoints of internal session `sid` whose id is outside the `n`
most recent (ordered by `created_at DESC, id DESC`), returns the number
of deleted rows, never deletes a manual checkpoint, removes every
auto-checkpoint of the session when `n = 0`, and is a no-op when the
session has at most `n` auto-checkpoints. -/
theorem c6_delete_auto_checkpoints (db : List CheckpointModel)
    (sid n : Nat) :
    (∀ r ∈ db,
      r ∈ (CheckpointRepository.delete_auto_checkpoints false sid n db).1 ↔
        ¬(r.internal_session_id = sid ∧ r.is_auto = true ∧
          r.id ∉ keepIdsOf db sid n)) ∧
    (CheckpointRepository.delete_auto_checkpoints false sid n db).2 =
      .ok (db.length -
        (CheckpointRepository.delete_auto_checkpoints false sid n db).1.length) ∧
    (∀ r ∈ db, r.is_auto = false →
      r ∈ (CheckpointRepository.delete_auto_checkpoints false sid n db).1) ∧
    (n = 0 →
      ∀ r ∈ (CheckpointRepository.delete_auto_checkpoints false sid n db).1,
        ¬(r.internal_session_id = sid ∧ r.is_auto = true)) ∧
    ((autosOf db sid).length ≤ n →
      (CheckpointRepository.delete_auto_checkpoints false sid n db).1 = db ∧
      (CheckpointRepository.delete_auto_checkpoints false sid n db).2 = .ok 0) := by
  rw [delete_auto_checkpoints_eq]
  dsimp only
  refine ⟨?_, ?_, ?_, ?_, ?_⟩
  · intro r hr
    rw [List.mem_filter]
    simp [hr]
    constructor
    · intro h h1 h2
      rcases h with (h | h) | h
      · exact absurd h1 h
      · rw [h2] at h
        cases h
      · exact h
    · intro h
      by_cases h1 : r.internal_session_id = sid
      · by_cases h2 : r.is_auto = true
        · exact .inr (h h1 h2)
        · refine .inl (.inr ?_)
          cases hb : r.is_auto
          · rfl
          · exact absurd hb h2
      · exact .inl (.inl h1)
  · have := length_filter_not_add db
      (fun r => r.internal_session_id == sid && r.is_auto &&
        !((keepIdsOf db sid n).contains r.id))
    congr 1
    omega
  · intro r hr hman
    rw [List.mem_filter]
    simp [hr, hman]
  · intro hn r hr
    rw [List.mem_filter] at hr
    have h2 := hr.2
    have hkeep : keepIdsOf db sid n = [] := by
      simp [keepIdsOf, hn]
    rw [hkeep] at h2
    simp at h2
    intro hc
    rcases h2 with h | h
    · exact h hc.1
    · rw [hc.2] at h
      cases h
  · intro hle
    have hall : ∀ r ∈ db,
        (!(r.internal_session_id == sid && r.is_auto &&
          !((keepIdsOf db sid n).contains r.id))) = true := by
      intro r hr
      by_cases hsa : r.internal_session_id = sid ∧ r.is_auto = true
      · have hmemA : r ∈ autosOf db sid := by
          rw [autosOf, List.mem_filter]
          exact ⟨hr, by simp [hsa.1, hsa.2]⟩
        have hsorted : r ∈ List.insertionSort rowDescLe (autosOf db sid) :=
          (List.perm_insertionSort rowDescLe (autosOf db sid)).mem_iff.mpr hmemA
        have htake : (List.insertionSort rowDescLe (autosOf db sid)).take n =
            List.insertionSort rowDescLe (autosOf db sid) := by
          apply List.take_of_length_le
          rw [(List.perm_insertionSort rowDescLe (autosOf db sid)).length_eq]
          exact hle
        have hid : r.id ∈ keepIdsOf db sid n := by
          rw [keepIdsOf, htake]
          exact List.mem_map.mpr ⟨r, hsorted, rfl⟩
        simp
        exact .inr hid
      · simp
        by_cases h1 : r.internal_session_id = sid
        · refine .inl (.inr ?_)
          cases hb : r.is_auto
          · rfl
          · exact absurd ⟨h1, hb⟩ hsa
        · exact .inl (.inl h1)
    constructor
    · exact List.filter_eq_self.mpr (fun r hr => hall r hr)
    · have hnil : db.filter
          (fun r => r.internal_session_id == sid && r.is_auto &&
            !((keepIdsOf db sid n).contains r.id)) = [] := by
        rw [List.filter_eq_nil_iff]
        intro r hr hcon
        have hfalse := hall r hr
        rw [hcon] at hfalse
        simp at hfalse
      rw [hnil]
      rfl

end AgentGit

namespace AgentGit

/-- Descending `(created_at, id)` order on checkpoint objects whose
timestamp and id are both present. -/
def cpDescLe (c d : Checkpoint) : Prop :=
  ∃ tc td ic idd, c.created_at = some tc ∧ d.created_at = some td ∧
    c.id = some ic ∧ d.id = some idd ∧ (td < tc ∨ (tc = td ∧ idd ≤ ic))

/-- Payload/column coherence of a stored checkpoint row: the serialized
`created_at` inside the JSON payload parses back to the column value. -/
def PayloadCoherent (r : CheckpointModel) : Prop :=
  (r.checkpoint_data.get "created_at").bind parseIso = some r.created_at

instance : DecidablePred PayloadCoherent := fun r => by
  unfold PayloadCoherent; infer_instance

/-- A row listing sorted descending maps to an object listing sorted
descending, provided every row's payload timestamp is coherent with its
column. -/
theorem sorted_map_row_to_checkpoint (rows : List CheckpointModel)
    (h : List.Sorted rowDescLe rows)
    (hco : ∀ r ∈ rows, PayloadCoherent r) :
    List.Sorted cpDescLe (rows.map _row_to_checkpoint) := by
  rw [List.Sorted, List.pairwise_map]
  refine List.Pairwise.imp_of_mem ?_ h
  intro a b ha hb hab
  refine ⟨a.created_at, b.created_at, a.id, b.id, hco a ha, hco b hb, rfl, rfl, hab⟩

/-- C8: `get_by_internal_session` (with or without `auto_only`) and
`get_by_user` return their rows in `(created_at DESC, id DESC)` order,
and — when every stored payload timestamp is coherent with its column —
the returned checkpoint objects are likewise sorted by
`(created_at DESC, id DESC)`. -/
theorem c8_listing_order (db : List CheckpointModel) (sid uid : Nat)
    (auto_only : Bool) (limit : Option Nat)
    (hco : ∀ r ∈ db, PayloadCoherent r) :
    List.Sorted rowDescLe
      (CheckpointRepository.get_by_internal_session_rows db sid auto_only) ∧
    List.Sorted rowDescLe (CheckpointRepository.get_by_user_rows db uid limit) ∧
    List.Sorted cpDescLe
      (CheckpointRepository.get_by_internal_session db sid auto_only) ∧
    List.Sorted cpDescLe (CheckpointRepository.get_by_user db uid limit) := by
  have hrows1 : List.Sorted rowDescLe
      (CheckpointRepository.get_by_internal_session_rows db sid auto_only) := by
    unfold CheckpointRepository.get_by_internal_session_rows
    exact List.sorted_insertionSort rowDescLe _
  have hmem1 : ∀ r ∈ CheckpointRepository.get_by_internal_session_rows db sid auto_only,
      r ∈ db := by
    intro r hr
    unfold CheckpointRepository.get_by_internal_session_rows at hr
    have hr2 := (List.perm_insertionSort rowDescLe _).mem_iff.mp hr
    by_cases hb : auto_only <;> simp [hb] at hr2
    · exact hr2.1
    · exact hr2.1
  have hrows2 : List.Sorted rowDescLe
      (CheckpointRepository.get_by_user_rows db uid limit) := by
    unfold CheckpointRepository.get_by_user_rows
    by_cases hb : pyTruthy limit
    · rw [if_pos hb]
      exact (List.sorted_insertionSort rowDescLe _).sublist (List.take_sublist _ _)
    · rw [if_neg hb]
      exact List.sorted_insertionSort rowDescLe _
  have hmem2 : ∀ r ∈ CheckpointRepository.get_by_user_rows db uid limit,
      r ∈ db := by
    intro r hr
    unfold CheckpointRepository.get_by_user_rows at hr
    by_cases hb : pyTruthy limit
    · rw [if_pos hb] at hr
      have := List.mem_of_mem_take hr
      have hr2 := (List.perm_insertionSort rowDescLe _).mem_iff.mp this
      exact (List.mem_filter.mp hr2).1
    · rw [if_neg hb] at hr
      have hr2 := (List.perm_insertionSort rowDescLe _).mem_iff.mp hr
      exact (List.mem_filter.mp hr2).1
  exact ⟨hrows1, hrows2,
    sorted_map_row_to_checkpoint _ hrows1 (fun r hr => hco r (hmem1 r hr)),
    sorted_map_row_to_checkpoint _ hrows2 (fun r hr => hco r (hmem2 r hr))⟩

/-- Concrete two-row checkpoint table with coherent payload timestamps. -/
def c8db : List CheckpointModel :=
  [{ id := 1, internal_session_id := 1, checkpoint_name := "a",
     checkpoint_data := .cons "created_at" (.str "5") .nil,
     is_auto := false, created_at := 5, user_id := some 1 },
   { id := 2, internal_session_id := 1, checkpoint_name := "b",
     checkpoint_data := .cons "created_at" (.str "7") .nil,
     is_auto := true, created_at := 7, user_id := some 1 }]

/-- Witness for the C8 ordering theorem on a concrete table. -/
theorem c8_listing_order_witness :
    List.Sorted rowDescLe
      (CheckpointRepository.get_by_internal_session_rows c8db 1 false) ∧
    List.Sorted rowDescLe (CheckpointRepository.get_by_user_rows c8db 1 none) ∧
    List.Sorted cpDescLe
      (CheckpointRepository.get_by_internal_session c8db 1 false) ∧
    List.Sorted cpDescLe (CheckpointRepository.get_by_user c8db 1 none) :=
  c8_listing_order c8db 1 1 false none (by decide)

end AgentGit

namespace AgentGit

instance {e : Type} {a : Type} [DecidableEq e] [DecidableEq a] :
    DecidableEq (Except e a)
  | .error e1, .error e2 =>
    if h : e1 = e2 then isTrue (by rw [h])
    else isFalse (by intro hc; cases hc; exact h rfl)
  | .error _, .ok _ => isFalse (by intro hc; cases hc)
  | .ok _, .error _ => isFalse (by intro hc; cases hc)
  | .ok a1, .ok a2 =>
    if h : a1 = a2 then isTrue (by rw [h])
    else isFalse (by intro hc; cases hc; exact h rfl)

/-- Internal-session row that is current before the faulty operation. -/
def c2row1 : InternalSessionModel :=
  { id := 1, external_session_id := 1, langgraph_session_id := "a",
    state_data := .nil, conversation_history := [], created_at := 0,
    is_current := true, checkpoint_count := 0, parent_session_id := none,
    branch_point_checkpoint_id := none, tool_invocation_count := 0,
    session_metadata := .nil }

/-- Sibling row of the same external session, not current. -/
def c2row2 : InternalSessionModel :=
  { id := 2, external_session_id := 1, langgraph_session_id := "b",
    state_data := .nil, conversation_history := [], created_at := 0,
    is_current := false, checkpoint_count := 0, parent_session_id := none,
    branch_point_checkpoint_id := none, tool_invocation_count := 0,
    session_metadata := .nil }

/-- Two-row internal-session table used for the atomicity
counterexample. -/
def c2db : List InternalSessionModel := [c2row1, c2row2]

/-- C2 counterexample: when the third transaction of
`set_current_session` fails, the operation raises but the
sibling-clearing committed by its second transaction persists, so the
database is not in its pre-operation state (the previously current
session lost its flag and no session is current). -/
theorem c2_atomicity_counterexample :
    (InternalSessionRepository.set_current_session false false true 2 c2db).2 =
      .error () ∧
    (InternalSessionRepository.set_current_session false false true 2 c2db).1 ≠
      c2db := ⟨by decide, by decide⟩

/-- C2 amended: each transaction (one `get_db_connection` block) commits
on success, rolls back on exception and always closes, so a repository
operation that fails before its first write transaction commits — in
particular any single-transaction operation, any operation failing in a
read-only first transaction, and `update_checkpoint_metadata` in full —
leaves the database in its pre-operation state; but operations composed
of several write transactions (`set_current_session`, and internal
`update`/`create` with `is_current` set) keep the committed effects of
earlier transactions when a later transaction fails. -/
theorem c2_atomicity_amended :
    (∀ (fault : Bool) (sid : Nat) (db : List InternalSessionModel),
      (InternalSessionRepository.delete fault sid db).2 = .error () →
      (InternalSessionRepository.delete fault sid db).1 = db) ∧
    (∀ (fault : Bool) (cid : Nat) (db : List CheckpointModel),
      (CheckpointRepository.delete fault cid db).2 = .error () →
      (CheckpointRepository.delete fault cid db).1 = db) ∧
    (∀ (fault : Bool) (cp : Checkpoint) (now : Nat) (db : List CheckpointModel),
      (CheckpointRepository.create fault cp now db).2 = .error () →
      (CheckpointRepository.create fault cp now db).1 = db) ∧
    (∀ (fault : Bool) (sid n : Nat) (db : List CheckpointModel),
      (CheckpointRepository.delete_auto_checkpoints fault sid n db).2 = .error () →
      (CheckpointRepository.delete_auto_checkpoints fault sid n db).1 = db) ∧
    (∀ (f1 f2 : Bool) (cid : Nat) (md : JObj) (db : List CheckpointModel),
      (CheckpointRepository.update_checkpoint_metadata f1 f2 cid md db).2 = .error () →
      (CheckpointRepository.update_checkpoint_metadata f1 f2 cid md db).1 = db) ∧
    (∀ (f1 f2 : Bool) (sid : Nat) (db : List InternalSessionModel),
      (InternalSessionRepository.set_current_session f1 f2 false sid db).2 = .error () →
      (InternalSessionRepository.set_current_session f1 f2 false sid db).1 = db) ∧
    (∀ (fmark : Bool) (s : InternalSession) (db : List InternalSessionModel),
      (InternalSessionRepository.update fmark false s db).2 = .error () →
      (InternalSessionRepository.update fmark false s db).1 = db) ∧
    (∀ (fmark : Bool) (s : InternalSession) (now : Nat)
        (db : List InternalSessionModel),
      (InternalSessionRepository.create fmark false s now db).2 = .error () →
      (InternalSessionRepository.create fmark false s now db).1 = db) := by
  refine ⟨?_, ?_, ?_, ?_, ?_, ?_, ?_, ?_⟩
  · intro fault sid db herr
    cases fault
    · rw [InternalSessionRepository.delete, runTx_false] at herr
      simp at herr
    · rfl
  · intro fault cid db herr
    cases fault
    · rw [CheckpointRepository.delete, runTx_false] at herr
      simp at herr
    · rfl
  · intro fault cp now db herr
    cases fault
    · rw [CheckpointRepository.create, runTx_false] at herr
      simp at herr
    · rfl
  · intro fault sid n db herr
    cases fault
    · rw [CheckpointRepository.delete_auto_checkpoints, runTx_false] at herr
      simp at herr
    · rfl
  · intro f1 f2 cid md db herr
    cases f1
    · unfold CheckpointRepository.update_checkpoint_metadata at herr ⊢
      simp only [runTx_false] at herr ⊢
      rcases hf : db.find? (fun r => r.id == cid) with _ | cp
      · rw [hf] at herr
        simp at herr
      · rw [hf] at herr ⊢
        cases f2
        · simp [runTx_false] at herr
        · rfl
    · rfl
  · intro f1 f2 sid db herr
    cases f1
    · unfold InternalSessionRepository.set_current_session at herr ⊢
      simp only [runTx_false] at herr ⊢
      rcases hf : db.find? (fun r => r.id == sid) with _ | r
      · rw [hf] at herr
        simp at herr
      · rw [hf] at herr ⊢
        cases f2
        · simp [runTx_false] at herr
        · rfl
    · rfl
  · intro fmark s db herr
    unfold InternalSessionRepository.update at herr ⊢
    by_cases hid : pyTruthy s.id = false
    · rw [if_pos hid] at herr
      simp at herr
    · rw [if_neg hid] at herr ⊢
      by_cases hcur : s.is_current
      · rw [if_pos hcur] at herr ⊢
        cases fmark
        · simp only [runTx_false] at herr
          simp at herr
        · rfl
      · rw [if_neg hcur] at herr ⊢
        simp only [runTx_false] at herr
        simp at herr
  · intro fmark s now db herr
    unfold InternalSessionRepository.create InternalSessionRepository.insertTx at herr ⊢
    by_cases hcur : s.is_current
    · rw [if_pos hcur] at herr ⊢
      cases fmark
      · simp only [runTx_false] at herr
        simp at herr
      · rfl
    · rw [if_neg hcur] at herr ⊢
      simp only [runTx_false] at herr
      simp at herr

end AgentGit

namespace AgentGit

/-- Witness for the amended atomicity theorem: concrete faulty runs of
each covered operation leave the table in its pre-operation state. -/
theorem c2_atomicity_amended_witness :
    (InternalSessionRepository.delete true 1 c2db).1 = c2db ∧
    (CheckpointRepository.delete true 1 c8db).1 = c8db ∧
    (CheckpointRepository.create true { internal_session_id := 1 } 3 c8db).1 = c8db ∧
    (CheckpointRepository.delete_auto_checkpoints true 1 2 c8db).1 = c8db ∧
    (CheckpointRepository.update_checkpoint_metadata true false 1 .nil c8db).1 = c8db ∧
    (InternalSessionRepository.set_current_session false true false 2 c2db).1 = c2db ∧
    (InternalSessionRepository.update true false
      { id := some 2, external_session_id := 1, is_current := true } c2db).1 = c2db ∧
    (InternalSessionRepository.create true false
      { external_session_id := 1, is_current := true } 5 c2db).1 = c2db :=
  ⟨c2_atomicity_amended.1 true 1 c2db (by decide),
   c2_atomicity_amended.2.1 true 1 c8db (by decide),
   c2_atomicity_amended.2.2.1 true { internal_session_id := 1 } 3 c8db (by decide),
   c2_atomicity_amended.2.2.2.1 true 1 2 c8db (by decide),
   c2_atomicity_amended.2.2.2.2.1 true false 1 .nil c8db (by decide),
   c2_atomicity_amended.2.2.2.2.2.1 false true 2 c2db (by decide),
   c2_atomicity_amended.2.2.2.2.2.2.1 true
     { id := some 2, external_session_id := 1, is_current := true } c2db (by decide),
   c2_atomicity_amended.2.2.2.2.2.2.2 true
     { external_session_id := 1, is_current := true } 5 c2db (by decide)⟩

end AgentGit

namespace AgentGit

/-- The mark transformation never touches the row id. -/
theorem markRow_id (ext : Nat) (ex : Option Nat) (r : InternalSessionModel) :
    (markRow ext ex r).id = r.id := by
  unfold markRow
  by_cases hc : r.external_session_id = ext ∧ (pyTruthy ex = true → r.id ≠ ex.getD 0)
  · rw [if_pos hc]
  · rw [if_neg hc]

/-- The mark transformation never touches the external session id. -/
theorem markRow_ext (ext : Nat) (ex : Option Nat) (r : InternalSessionModel) :
    (markRow ext ex r).external_session_id = r.external_session_id := by
  unfold markRow
  by_cases hc : r.external_session_id = ext ∧ (pyTruthy ex = true → r.id ≠ ex.getD 0)
  · rw [if_pos hc]
  · rw [if_neg hc]

/-- A row that is current after the mark transformation was current
before. -/
theorem markRow_cur (ext : Nat) (ex : Option Nat) (r : InternalSessionModel)
    (h : (markRow ext ex r).is_current = true) : r.is_current = true := by
  unfold markRow at h
  by_cases hc : r.external_session_id = ext ∧ (pyTruthy ex = true → r.id ≠ ex.getD 0)
  · rw [if_pos hc] at h
    cases h
  · rwa [if_neg hc] at h

/-- One repository operation of the internal-session repository, as
invoked in a history of calls (the `now` of a create is the flush-time
`created_at` default). -/
inductive RepoOp where
  | createOp (s : InternalSession) (now : Nat)
  | updateOp (s : InternalSession)
  | setCurrentOp (session_id : Nat)

/-- Apply one fault-free repository operation to the table. -/
def applyOp : RepoOp → List InternalSessionModel → List InternalSessionModel
  | .createOp s now, db => createRun s now db
  | .updateOp s, db => updateRun s db
  | .setCurrentOp sid, db => setCurrentRun sid db

/-- Apply a sequence of fault-free repository operations in order. -/
def applyOps : List RepoOp → List InternalSessionModel → List InternalSessionModel
  | [], db => db
  | op :: ops, db => applyOps ops (applyOp op db)

/-- Consistency of one operation with the table it is applied to: an
`update` must carry the stored row's `external_session_id` (the object
was loaded from that row, not fabricated with a foreign external session
id). -/
def ConsistentOp (db : List InternalSessionModel) : RepoOp → Prop
  | .updateOp s => ∀ r ∈ db, some r.id = s.id →
      s.external_session_id = r.external_session_id
  | _ => True

/-- Consistency of a whole operation sequence, each step judged against
the table state it runs on. -/
def ConsistentOps : List RepoOp → List InternalSessionModel → Prop
  | [], _ => True
  | op :: ops, db => ConsistentOp db op ∧ ConsistentOps ops (applyOp op db)

/-- Operation sequence breaking current-uniqueness: create a current
session and a sibling under external session 1, then update the sibling
to current while passing external session 2 on the object, so the
sibling clearing misses external session 1. -/
def c1ops : List RepoOp :=
  [.createOp { external_session_id := 1, langgraph_session_id := "a",
               is_current := true } 1,
   .createOp { external_session_id := 1, langgraph_session_id := "b" } 2,
   .updateOp { id := some 2, external_session_id := 2,
               langgraph_session_id := "b", is_current := true }]

/-- C1 counterexample: after the `c1ops` sequence from the empty table,
external session 1 has two internal sessions with `is_current = true`,
because `update` clears siblings of the passed object's
`external_session_id` rather than the stored row's. -/
theorem c1_current_uniqueness_counterexample :
    currentCount (applyOps c1ops []) 1 = 2 := by decide

end AgentGit

namespace AgentGit

/-- A truthy optional id is a nonzero `some`. -/
theorem pyTruthy_some (o : Option Nat) (h : pyTruthy o = true) :
    o = some (o.getD 0) ∧ o.getD 0 ≠ 0 := by
  cases o with
  | none => cases h
  | some n =>
    refine ⟨rfl, ?_⟩
    simpa [pyTruthy] using h

/-- Fault-free `create` clears siblings when the object is current, then
appends the flushed row. -/
theorem createRun_eq (s : InternalSession) (now : Nat)
    (db : List InternalSessionModel) :
    createRun s now db =
      (if s.is_current then
        _mark_all_not_current s.external_session_id none db
      else db) ++
      [InternalSessionRepository.insertedRow s now
        (if s.is_current then
          _mark_all_not_current s.external_session_id none db
        else db)] := by
  unfold createRun InternalSessionRepository.create
    InternalSessionRepository.insertTx
  by_cases hcur : s.is_current
  · simp only [if_pos hcur, runTx_false]
  · simp only [if_neg hcur, runTx_false]

/-- Fault-free `update` with a falsy id is a no-op. -/
theorem updateRun_eq_falsy (s : InternalSession)
    (db : List InternalSessionModel) (h : pyTruthy s.id = false) :
    updateRun s db = db := by
  unfold updateRun InternalSessionRepository.update
  rw [if_pos h]

/-- Fault-free `update` with a truthy id clears siblings of the object's
external session (when the object is current) and then rewrites the first
row carrying the object's id. -/
theorem updateRun_eq_truthy (s : InternalSession)
    (db : List InternalSessionModel) (h : pyTruthy s.id = true) :
    updateRun s db =
      (updateFirst (fun r => r.id == s.id.getD 0) (applySessionFields s)
        (if s.is_current then
          _mark_all_not_current s.external_session_id s.id db
        else db)).1 := by
  unfold updateRun InternalSessionRepository.update
  rw [if_neg (by simp [h])]
  by_cases hcur : s.is_current
  · simp only [if_pos hcur, runTx_false]
  · simp only [if_neg hcur, runTx_false]

/-- Fault-free `set_current_session` on an absent id is a no-op. -/
theorem setCurrentRun_eq_none (sid : Nat) (db : List InternalSessionModel)
    (h : db.find? (fun r => r.id == sid) = none) :
    setCurrentRun sid db = db := by
  unfold setCurrentRun InternalSessionRepository.set_current_session
  simp only [runTx_false]
  rw [h]
  rfl

/-- Fault-free `set_current_session` on a stored row clears every row of
that row's external session and then sets the first row with the id
current. -/
theorem setCurrentRun_eq_some (sid : Nat) (db : List InternalSessionModel)
    (r : InternalSessionModel) (h : db.find? (fun x => x.id == sid) = some r) :
    setCurrentRun sid db =
      (updateFirst (fun x => x.id == sid) (fun x => { x with is_current := true })
        (_mark_all_not_current r.external_session_id none db)).1 := by
  unfold setCurrentRun InternalSessionRepository.set_current_session
  simp only [runTx_false]
  rw [h]
  rfl

/-- Sibling clearing does not change the id column. -/
theorem mark_all_map_id (ext : Nat) (ex : Option Nat)
    (db : List InternalSessionModel) :
    (_mark_all_not_current ext ex db).map (fun r => r.id) =
      db.map (fun r => r.id) := by
  unfold _mark_all_not_current
  rw [List.map_map]
  exact List.map_congr_left (fun r _ => markRow_id ext ex r)

/-- Every element is bounded by the running maximum of the id column. -/
theorem id_le_fold (db : List InternalSessionModel) :
    ∀ r ∈ db, r.id ≤ db.foldr (fun r m => max r.id m) 0 := by
  induction db with
  | nil => intro r hr; cases hr
  | cons a l ih =>
    intro r hr
    rcases List.mem_cons.mp hr with rfl | hr2
    · exact Nat.le_max_left _ _
    · exact Nat.le_trans (ih r hr2) (Nat.le_max_right _ _)

/-- The freshly allocated id differs from every stored id. -/
theorem nextId_fresh (db : List InternalSessionModel) :
    ∀ r ∈ db, r.id ≠ nextId db := by
  intro r hr
  have := id_le_fold db r hr
  unfold nextId
  omega

/-- Sibling clearing preserves the no-two-current-per-session pairwise
invariant. -/
theorem mark_all_pairwise (ext : Nat) (ex : Option Nat)
    (db : List InternalSessionModel)
    (h : List.Pairwise NotBothCurrent db) :
    List.Pairwise NotBothCurrent (_mark_all_not_current ext ex db) := by
  unfold _mark_all_not_current
  rw [List.pairwise_map]
  refine h.imp ?_
  intro a b hab hext hcur
  refine hab ?_ ⟨markRow_cur _ _ _ hcur.1, markRow_cur _ _ _ hcur.2⟩
  rw [← markRow_ext ext ex a, ← markRow_ext ext ex b, hext]

end AgentGit

namespace AgentGit

/-- `create` preserves the no-two-current invariant: when the object is
current the siblings are cleared before the current row is appended, and
otherwise the appended row is not current. -/
theorem create_preserves (s : InternalSession) (now : Nat)
    (db : List InternalSessionModel)
    (h : List.Pairwise NotBothCurrent db) :
    List.Pairwise NotBothCurrent (createRun s now db) := by
  rw [createRun_eq, List.pairwise_append]
  by_cases hcur : s.is_current
  · simp only [if_pos hcur]
    refine ⟨mark_all_pairwise _ _ _ h, List.pairwise_singleton _ _, ?_⟩
    intro a ha b hb
    rw [List.mem_singleton] at hb
    subst hb
    intro hext hcurs
    have ha' : a.is_current = false := by
      apply mark_all_cleared s.external_session_id none db a ha
      · exact hext
      · intro hT
        simp [pyTruthy] at hT
    have hc := hcurs.1
    rw [ha'] at hc
    cases hc
  · simp only [if_neg hcur]
    refine ⟨h, List.pairwise_singleton _ _, ?_⟩
    intro a ha b hb
    rw [List.mem_singleton] at hb
    subst hb
    intro hext hcurs
    exact hcur hcurs.2

/-- Rows of a cleared table with the target id carry the object's
external session id, given update-consistency of the object. -/
theorem marked_ext_of_id (s : InternalSession) (ex : Option Nat)
    (db : List InternalSessionModel) (e : Nat) (hsid : s.id = some e)
    (hcons : ∀ r ∈ db, some r.id = s.id →
      s.external_session_id = r.external_session_id) :
    ∀ x ∈ _mark_all_not_current s.external_session_id ex db, x.id = e →
      x.external_session_id = s.external_session_id := by
  intro x hx hxe
  rcases mark_all_mem _ _ _ _ hx with ⟨z, hz, hcase⟩
  have hzid : z.id = e := by
    rcases hcase with rfl | rfl
    · exact hxe
    · exact hxe
  have hzext : z.external_session_id = x.external_session_id := by
    rcases hcase with rfl | rfl
    · rfl
    · rfl
  rw [← hzext]
  exact (hcons z hz (by rw [hzid, hsid])).symm

/-- Two rows of a cleared table with the same id are the same row, when
the original id column has no duplicates. -/
theorem marked_same_id (ext : Nat) (ex : Option Nat)
    (db : List InternalSessionModel)
    (hnodup : (db.map (fun r => r.id)).Nodup) :
    ∀ x ∈ _mark_all_not_current ext ex db,
    ∀ y ∈ _mark_all_not_current ext ex db, x.id = y.id → x = y := by
  have hnd : ((_mark_all_not_current ext ex db).map (fun r => r.id)).Nodup := by
    rw [mark_all_map_id]
    exact hnodup
  intro x hx y hy hxy
  exact List.inj_on_of_nodup_map hnd hx hy hxy

/-- `update` preserves the no-two-current invariant, provided the object
carries the stored row's external session id and ids are unique. -/
theorem update_preserves (s : InternalSession)
    (db : List InternalSessionModel)
    (h : List.Pairwise NotBothCurrent db)
    (hnodup : (db.map (fun r => r.id)).Nodup)
    (hcons : ∀ r ∈ db, some r.id = s.id →
      s.external_session_id = r.external_session_id) :
    List.Pairwise NotBothCurrent (updateRun s db) := by
  by_cases hid : pyTruthy s.id = true
  · rw [updateRun_eq_truthy s db hid]
    rcases pyTruthy_some s.id hid with ⟨hsid, hne⟩
    by_cases hcur : s.is_current
    · simp only [if_pos hcur]
      apply pairwise_updateFirst
      have h1 := mark_all_pairwise s.external_session_id s.id db h
      have idext := marked_ext_of_id s s.id db (s.id.getD 0) hsid hcons
      have sameid := marked_same_id s.external_session_id s.id db hnodup
      have cleared : ∀ x ∈ _mark_all_not_current s.external_session_id s.id db,
          x.external_session_id = s.external_session_id →
          x.id ≠ s.id.getD 0 → x.is_current = false := by
        intro x hx hxe hxid
        exact mark_all_cleared _ _ _ _ hx hxe (fun _ => hxid)
      refine h1.imp_of_mem ?_
      intro a b ha hb hab
      refine ⟨hab, ?_, ?_⟩
      · intro hpa hext2 hcur2
        have haid : a.id = s.id.getD 0 := by simpa using hpa
        have haext := idext a ha haid
        have hbext : b.external_session_id = s.external_session_id := by
          rw [← hext2]
          exact haext
        by_cases hbid : b.id = s.id.getD 0
        · have hba : a = b := sameid a ha b hb (by rw [haid, hbid])
          subst hba
          exact hab rfl ⟨hcur2.2, hcur2.2⟩
        · have hbc := cleared b hb hbext hbid
          have hc := hcur2.2
          rw [hbc] at hc
          cases hc
      · intro hpb hext2 hcur2
        have hbid : b.id = s.id.getD 0 := by simpa using hpb
        have hbext := idext b hb hbid
        have haext : a.external_session_id = s.external_session_id := by
          rw [hext2]
          exact hbext
        by_cases haid : a.id = s.id.getD 0
        · have hba : a = b := sameid a ha b hb (by rw [haid, hbid])
          subst hba
          exact hab rfl ⟨hcur2.1, hcur2.1⟩
        · have hac := cleared a ha haext haid
          have hc := hcur2.1
          rw [hac] at hc
          cases hc
    · simp only [if_neg hcur]
      apply pairwise_updateFirst
      refine h.imp ?_
      intro a b hab
      refine ⟨hab, ?_, ?_⟩
      · intro _ _ hcur2
        exact hcur hcur2.1
      · intro _ _ hcur2
        exact hcur hcur2.2
  · rw [updateRun_eq_falsy s db (by
      cases hb : pyTruthy s.id
      · rfl
      · exact absurd hb hid)]
    exact h

/-- `set_current_session` preserves the no-two-current invariant when the
id column has no duplicates. -/
theorem setCurrent_preserves (sid : Nat) (db : List InternalSessionModel)
    (h : List.Pairwise NotBothCurrent db)
    (hnodup : (db.map (fun r => r.id)).Nodup) :
    List.Pairwise NotBothCurrent (setCurrentRun sid db) := by
  rcases hf : db.find? (fun x => x.id == sid) with _ | r
  · rw [setCurrentRun_eq_none sid db hf]
    exact h
  · rw [setCurrentRun_eq_some sid db r hf]
    apply pairwise_updateFirst
    have hrmem : r ∈ db := List.mem_of_find?_eq_some hf
    have hrid : r.id = sid := by simpa using List.find?_some hf
    have h1 := mark_all_pairwise r.external_session_id none db h
    have sameid := marked_same_id r.external_session_id none db hnodup
    have cleared : ∀ x ∈ _mark_all_not_current r.external_session_id none db,
        x.external_session_id = r.external_session_id → x.is_current = false := by
      intro x hx hxe
      exact mark_all_cleared _ _ _ _ hx hxe (fun hT => by simp [pyTruthy] at hT)
    have idext : ∀ x ∈ _mark_all_not_current r.external_session_id none db,
        x.id = sid → x.external_session_id = r.external_session_id := by
      intro x hx hxid
      rcases mark_all_mem _ _ _ _ hx with ⟨z, hz, hcase⟩
      have hzid : z.id = sid := by
        rcases hcase with rfl | rfl
        · exact hxid
        · exact hxid
      have hzr : z = r := List.inj_on_of_nodup_map hnodup hz hrmem (by rw [hzid, hrid])
      rcases hcase with rfl | rfl
      · rw [hzr]
      · rw [hzr]
    refine h1.imp_of_mem ?_
    intro a b ha hb hab
    refine ⟨hab, ?_, ?_⟩
    · intro hpa hext2 hcur2
      have haid : a.id = sid := by simpa using hpa
      have haext := idext a ha haid
      have hbext : b.external_session_id = r.external_session_id := by
        rw [← hext2]
        exact haext
      have hbc := cleared b hb hbext
      have hc := hcur2.2
      rw [hbc] at hc
      cases hc
    · intro hpb hext2 hcur2
      have hbid : b.id = sid := by simpa using hpb
      have hbext := idext b hb hbid
      have haext : a.external_session_id = r.external_session_id := by
        rw [hext2]
        exact hbext
      have hac := cleared a ha haext
      have hc := hcur2.1
      rw [hac] at hc
      cases hc

end AgentGit

namespace AgentGit

/-- The allocated id only depends on the id column. -/
theorem nextId_map_id (l : List InternalSessionModel) :
    nextId l = (l.map (fun r => r.id)).foldr max 0 + 1 := by
  unfold nextId
  rw [List.foldr_map]

/-- `create` keeps the id column duplicate-free: the new id is strictly
above every stored id. -/
theorem createRun_nodup (s : InternalSession) (now : Nat)
    (db : List InternalSessionModel)
    (h : (db.map (fun r => r.id)).Nodup) :
    ((createRun s now db).map (fun r => r.id)).Nodup := by
  rw [createRun_eq, List.map_append]
  have hids : ((if s.is_current then
      _mark_all_not_current s.external_session_id none db else db).map
        (fun r => r.id)) = db.map (fun r => r.id) := by
    by_cases hcur : s.is_current
    · simp only [if_pos hcur]
      exact mark_all_map_id _ _ _
    · simp only [if_neg hcur]
  rw [hids]
  rw [List.nodup_append]
  refine ⟨h, List.nodup_singleton _, ?_⟩
  intro x hx hx2
  simp only [List.map_cons, List.map_nil, List.mem_singleton] at hx2
  rcases List.mem_map.mp hx with ⟨z, hz, rfl⟩
  have hle := id_le_fold db z hz
  have hnid : (InternalSessionRepository.insertedRow s now
      (if s.is_current then
        _mark_all_not_current s.external_session_id none db else db)).id =
      nextId db := by
    show nextId _ = nextId db
    rw [nextId_map_id, nextId_map_id, hids]
  rw [hnid] at hx2
  exact nextId_fresh db z hz hx2

/-- `update` does not change the id column. -/
theorem updateRun_map_id (s : InternalSession)
    (db : List InternalSessionModel) :
    (updateRun s db).map (fun r => r.id) = db.map (fun r => r.id) := by
  by_cases hid : pyTruthy s.id = true
  · rw [updateRun_eq_truthy s db hid]
    rw [updateFirst_map_key (fun r => r.id == s.id.getD 0) (applySessionFields s)
      (fun r => r.id) (fun r => rfl)]
    by_cases hcur : s.is_current
    · simp only [if_pos hcur]
      exact mark_all_map_id _ _ _
    · simp only [if_neg hcur]
  · rw [updateRun_eq_falsy s db (by
      cases hb : pyTruthy s.id
      · rfl
      · exact absurd hb hid)]

/-- `set_current_session` does not change the id column. -/
theorem setCurrentRun_map_id (sid : Nat) (db : List InternalSessionModel) :
    (setCurrentRun sid db).map (fun r => r.id) = db.map (fun r => r.id) := by
  rcases hf : db.find? (fun x => x.id == sid) with _ | r
  · rw [setCurrentRun_eq_none sid db hf]
  · rw [setCurrentRun_eq_some sid db r hf]
    rw [updateFirst_map_key (fun x : InternalSessionModel => x.id == sid)
      (fun x : InternalSessionModel => { x with is_current := true })
      (fun x : InternalSessionModel => x.id) (fun x => rfl)]
    exact mark_all_map_id _ _ _

/-- One fault-free operation keeps the id column duplicate-free. -/
theorem applyOp_nodup (op : RepoOp) (db : List InternalSessionModel)
    (h : (db.map (fun r => r.id)).Nodup) :
    ((applyOp op db).map (fun r => r.id)).Nodup := by
  cases op with
  | createOp s now => exact createRun_nodup s now db h
  | updateOp s =>
    show ((updateRun s db).map (fun r => r.id)).Nodup
    rw [updateRun_map_id]
    exact h
  | setCurrentOp sid =>
    show ((setCurrentRun sid db).map (fun r => r.id)).Nodup
    rw [setCurrentRun_map_id]
    exact h

/-- One fault-free, consistent operation preserves the no-two-current
invariant. -/
theorem applyOp_preserves (op : RepoOp) (db : List InternalSessionModel)
    (h : List.Pairwise NotBothCurrent db)
    (hnodup : (db.map (fun r => r.id)).Nodup)
    (hcons : ConsistentOp db op) :
    List.Pairwise NotBothCurrent (applyOp op db) := by
  cases op with
  | createOp s now => exact create_preserves s now db h
  | updateOp s => exact update_preserves s db h hnodup hcons
  | setCurrentOp sid => exact setCurrent_preserves sid db h hnodup

/-- A consistent sequence of fault-free operations preserves the
no-two-current invariant. -/
theorem applyOps_preserves (ops : List RepoOp) :
    ∀ db : List InternalSessionModel,
      List.Pairwise NotBothCurrent db →
      (db.map (fun r => r.id)).Nodup →
      ConsistentOps ops db →
      List.Pairwise NotBothCurrent (applyOps ops db) := by
  induction ops with
  | nil => intro db h _ _; exact h
  | cons op ops ih =>
    intro db h hnodup hcons
    exact ih (applyOp op db)
      (applyOp_preserves op db h hnodup hcons.1)
      (applyOp_nodup op db hnodup)
      hcons.2

end AgentGit

namespace AgentGit

/-- Pointwise behaviour of the mark transformation: a row is untouched or
loses its `is_current` flag. -/
theorem markRow_cases (ext : Nat) (ex : Option Nat)
    (r : InternalSessionModel) :
    markRow ext ex r = r ∨ markRow ext ex r = { r with is_current := false } := by
  unfold markRow
  by_cases hc : r.external_session_id = ext ∧ (pyTruthy ex = true → r.id ≠ ex.getD 0)
  · exact .inr (by rw [if_pos hc])
  · exact .inl (by rw [if_neg hc])

/-- The mark applied to the found row simply clears its flag (its
external session always matches and the exclusion is empty). -/
theorem markRow_self (r : InternalSessionModel) :
    markRow r.external_session_id none r = { r with is_current := false } := by
  unfold markRow
  rw [if_pos ⟨rfl, fun hT => by simp [pyTruthy] at hT⟩]

/-- Return value of `set_current_session` when the row exists: the
outcome of the final update transaction. -/
theorem setCurrent_snd_eq_some (sid : Nat) (db : List InternalSessionModel)
    (r : InternalSessionModel) (h : db.find? (fun x => x.id == sid) = some r) :
    (InternalSessionRepository.set_current_session false false false sid db).2 =
      .ok (updateFirst (fun x => x.id == sid)
        (fun x => { x with is_current := true })
        (_mark_all_not_current r.external_session_id none db)).2 := by
  unfold InternalSessionRepository.set_current_session
  simp only [runTx_false]
  rw [h]
  rfl

/-- Successful `set_current_session` makes the target row the unique
current row of its external session — the filter of current rows in that
external session is exactly the re-flagged target — and reports
success. -/
theorem setCurrent_post (sid : Nat) (db : List InternalSessionModel)
    (r : InternalSessionModel)
    (hf : db.find? (fun x => x.id == sid) = some r) :
    (setCurrentRun sid db).filter
      (fun x => x.external_session_id == r.external_session_id && x.is_current) =
      [{ r with is_current := true }] ∧
    (InternalSessionRepository.set_current_session false false false sid db).2 =
      .ok true := by
  have hpr : (r.id == sid) = true := by
    have h2 := List.find?_some hf
    simpa using h2
  rcases find?_split hf with ⟨l₁, l₂, heq, hpre⟩
  have hmark : _mark_all_not_current r.external_session_id none db =
      (l₁.map (markRow r.external_session_id none)) ++
        { r with is_current := false } ::
          (l₂.map (markRow r.external_session_id none)) := by
    unfold _mark_all_not_current
    rw [heq]
    rw [List.map_append, List.map_cons, markRow_self]
  have hpre2 : ∀ y ∈ l₁.map (markRow r.external_session_id none),
      ¬ (y.id == sid) = true := by
    intro y hy
    rcases List.mem_map.mp hy with ⟨z, hz, rfl⟩
    rw [markRow_id]
    exact hpre z hz
  have hsplit := updateFirst_append_split
    (fun x : InternalSessionModel => x.id == sid)
    (fun x : InternalSessionModel => { x with is_current := true })
    (l₁.map (markRow r.external_session_id none))
    (l₂.map (markRow r.external_session_id none))
    { r with is_current := false }
    hpre2 hpr
  have hclear : ∀ (l : List InternalSessionModel),
      (l.map (markRow r.external_session_id none)).filter
        (fun x => x.external_session_id == r.external_session_id && x.is_current) =
        [] := by
    intro l
    rw [List.filter_eq_nil_iff]
    intro y hy hcon
    rcases List.mem_map.mp hy with ⟨z, hz, rfl⟩
    have hcur : (markRow r.external_session_id none z).is_current = true := by
      simpa using (Bool.and_elim_right hcon)
    have hext : (markRow r.external_session_id none z).external_session_id =
        r.external_session_id := by
      simpa using (Bool.and_elim_left hcon)
    have := mark_all_cleared r.external_session_id none (z :: []) _
      (by simp [_mark_all_not_current]) hext (fun hT => by simp [pyTruthy] at hT)
    rw [this] at hcur
    cases hcur
  constructor
  · rw [setCurrentRun_eq_some sid db r hf, hmark, hsplit]
    dsimp only
    rw [List.filter_append, hclear l₁, List.filter_cons]
    rw [if_pos (by simp)]
    rw [hclear l₂]
    rfl
  · rw [setCurrent_snd_eq_some sid db r hf, hmark, hsplit]

end AgentGit

namespace AgentGit

/-- C1 amended: after any sequence of fault-free
`InternalSessionRepository` operations (create, update,
set_current_session) starting from a table satisfying current-uniqueness
with duplicate-free ids, at most one internal session per external
session has `is_current = true` — provided every `update` passes the
stored row's `external_session_id` on the object (the code clears
siblings of the passed object's external session, so a mismatching
object breaks the invariant); in particular `set_current_session(id)` on
an existing session makes it the unique current session of its external
session, clearing `is_current` on all siblings. -/
theorem c1_current_uniqueness_amended :
    (∀ (db : List InternalSessionModel) (ops : List RepoOp),
      CurrentUnique db → (db.map (fun r => r.id)).Nodup →
      ConsistentOps ops db → CurrentUnique (applyOps ops db)) ∧
    (∀ (sid : Nat) (db : List InternalSessionModel)
        (r : InternalSessionModel),
      db.find? (fun x => x.id == sid) = some r →
      ((setCurrentRun sid db).filter
        (fun x => x.external_session_id == r.external_session_id &&
          x.is_current) = [{ r with is_current := true }] ∧
      (InternalSessionRepository.set_current_session false false false
        sid db).2 = .ok true)) := by
  constructor
  · intro db ops hinv hnodup hcons
    rw [currentUnique_iff_pairwise]
    exact applyOps_preserves ops db
      ((currentUnique_iff_pairwise db).mp hinv) hnodup hcons
  · intro sid db r hf
    exact setCurrent_post sid db r hf

/-- Consistent operation sequence used by the C1 witness. -/
def c1wOps : List RepoOp :=
  [.createOp { external_session_id := 1, langgraph_session_id := "a",
               is_current := true } 1,
   .createOp { external_session_id := 1, langgraph_session_id := "b" } 2,
   .setCurrentOp 2]

/-- Witness for the amended current-uniqueness theorem at concrete
inputs. -/
theorem c1_current_uniqueness_amended_witness :
    CurrentUnique (applyOps c1wOps []) ∧
    ((setCurrentRun 2 c2db).filter
      (fun x => x.external_session_id == c2row2.external_session_id &&
        x.is_current) = [{ c2row2 with is_current := true }] ∧
    (InternalSessionRepository.set_current_session false false false
      2 c2db).2 = .ok true) :=
  ⟨c1_current_uniqueness_amended.1 [] c1wOps
      (fun e => by simp [currentCount])
      (by simp)
      ⟨trivial, trivial, trivial, trivial⟩,
   c1_current_uniqueness_amended.2 2 c2db c2row2 (by decide)⟩

end AgentGit

namespace AgentGit

/-- Frame relation of `InternalSessionRepository.update` between a result
row and its original row: the id and the five non-updatable columns
(`langgraph_session_id`, `external_session_id`, `parent_session_id`,
`branch_point_checkpoint_id`, `created_at`) are unchanged; the row with
the target id receives exactly the six updatable fields from the object;
every other row is unchanged or merely loses its `is_current` flag. -/
def UpdateFrameRel (s : InternalSession) (e : Nat)
    (r' r : InternalSessionModel) : Prop :=
  r'.id = r.id ∧
  r'.langgraph_session_id = r.langgraph_session_id ∧
  r'.external_session_id = r.external_session_id ∧
  r'.parent_session_id = r.parent_session_id ∧
  r'.branch_point_checkpoint_id = r.branch_point_checkpoint_id ∧
  r'.created_at = r.created_at ∧
  (r.id = e → r' = applySessionFields s r) ∧
  (r.id ≠ e → r' = r ∨ r' = { r with is_current := false })

/-- Rows away from the target id satisfy the frame relation whenever they
are original or merely cleared. -/
theorem frame_untouched (s : InternalSession) (e : Nat)
    (m l : List InternalSessionModel)
    (hrel : List.Forall₂
      (fun mr r => mr = r ∨ mr = { r with is_current := false }) m l)
    (hne : ∀ r ∈ l, r.id ≠ e) :
    List.Forall₂ (UpdateFrameRel s e) m l := by
  induction hrel with
  | nil => exact List.Forall₂.nil
  | @cons mr r m2 l2 hmr htail ih =>
    refine List.Forall₂.cons ?_ (ih (fun x hx => hne x (by simp [hx])))
    have hre : r.id ≠ e := hne r (by simp)
    rcases hmr with rfl | rfl
    · exact ⟨rfl, rfl, rfl, rfl, rfl, rfl, fun hc => absurd hc hre,
        fun _ => .inl rfl⟩
    · exact ⟨rfl, rfl, rfl, rfl, rfl, rfl, fun hc => absurd hc hre,
        fun _ => .inr rfl⟩

/-- Core of the frame condition: `updateFirst` over an
optionally-cleared table rewrites exactly the unique target row and
leaves the rest alone (up to the clearing). -/
theorem update_frame_aux (s : InternalSession) (e : Nat)
    (m l : List InternalSessionModel)
    (hrel : List.Forall₂
      (fun mr r => mr = r ∨ mr = { r with is_current := false }) m l)
    (hnodup : (l.map (fun r => r.id)).Nodup) :
    List.Forall₂ (UpdateFrameRel s e)
      (updateFirst (fun x => x.id == e) (applySessionFields s) m).1 l := by
  induction hrel with
  | nil => exact List.Forall₂.nil
  | @cons mr r m2 l2 hmr htail ih =>
    rw [List.map_cons, List.nodup_cons] at hnodup
    have hid : mr.id = r.id := by
      rcases hmr with rfl | rfl <;> rfl
    by_cases hp : (mr.id == e) = true
    · have hre : r.id = e := by
        rw [← hid]
        simpa using hp
      have hstep : (updateFirst (fun x => x.id == e) (applySessionFields s)
          (mr :: m2)).1 = applySessionFields s mr :: m2 := by
        simp [updateFirst, hp]
      rw [hstep]
      refine List.Forall₂.cons ?_ ?_
      · have hFm : applySessionFields s mr = applySessionFields s r := by
          rcases hmr with rfl | rfl <;> rfl
        rw [hFm]
        exact ⟨rfl, rfl, rfl, rfl, rfl, rfl, fun _ => rfl,
          fun hne => absurd hre hne⟩
      · refine frame_untouched s e m2 l2 htail ?_
        intro x hx hxe
        exact hnodup.1 (List.mem_map.mpr ⟨x, hx, by rw [hxe, hre]⟩)
    · have hre : r.id ≠ e := by
        rw [← hid]
        simpa using hp
      have hstep : (updateFirst (fun x => x.id == e) (applySessionFields s)
          (mr :: m2)).1 =
          mr :: (updateFirst (fun x => x.id == e) (applySessionFields s) m2).1 := by
        simp [updateFirst, hp]
      rw [hstep]
      refine List.Forall₂.cons ?_ (ih hnodup.2)
      rcases hmr with rfl | rfl
      · exact ⟨rfl, rfl, rfl, rfl, rfl, rfl, fun hc => absurd hc hre,
          fun _ => .inl rfl⟩
      · exact ⟨rfl, rfl, rfl, rfl, rfl, rfl, fun hc => absurd hc hre,
          fun _ => .inr rfl⟩

/-- The cleared table is pointwise the original table with at most the
`is_current` flag dropped. -/
theorem mark_forall (ext : Nat) (ex : Option Nat) :
    ∀ db : List InternalSessionModel,
    List.Forall₂ (fun mr r => mr = r ∨ mr = { r with is_current := false })
      (_mark_all_not_current ext ex db) db := by
  intro db
  induction db with
  | nil => exact List.Forall₂.nil
  | cons r l ih => exact List.Forall₂.cons (markRow_cases ext ex r) ih

/-- A table is pointwise unchanged from itself. -/
theorem refl_forall :
    ∀ db : List InternalSessionModel,
    List.Forall₂ (fun mr r => mr = r ∨ mr = { r with is_current := false })
      db db := by
  intro db
  induction db with
  | nil => exact List.Forall₂.nil
  | cons r l ih => exact List.Forall₂.cons (.inl rfl) ih

/-- C10: `update(session)` with a truthy id over a duplicate-free id
column modifies only the target row's `state_data`,
`conversation_history`, `is_current`, `checkpoint_count`,
`tool_invocation_count` and `metadata`; the row's
`langgraph_session_id`, `external_session_id`, `parent_session_id`,
`branch_point_checkpoint_id` and `created_at` are left unchanged, and
every other row is modified at most by having its `is_current` flag
cleared. -/
theorem c10_update_frame (s : InternalSession)
    (db : List InternalSessionModel) (e : Nat)
    (hsid : s.id = some e) (he : e ≠ 0)
    (hnodup : (db.map (fun r => r.id)).Nodup) :
    List.Forall₂ (UpdateFrameRel s e) (updateRun s db) db := by
  have hidt : pyTruthy s.id = true := by
    rw [hsid]
    simp [pyTruthy, he]
  rw [updateRun_eq_truthy s db hidt]
  have hgetD : s.id.getD 0 = e := by rw [hsid]; rfl
  rw [hgetD]
  by_cases hcur : s.is_current
  · simp only [if_pos hcur]
    exact update_frame_aux s e _ db
      (mark_forall s.external_session_id s.id db) hnodup
  · simp only [if_neg hcur]
    exact update_frame_aux s e db db (refl_forall db) hnodup

/-- Update object used by the C10 witness: targets row 2 of `c2db`. -/
def c10s : InternalSession :=
  { id := some 2, external_session_id := 1, langgraph_session_id := "b",
    is_current := true, checkpoint_count := 3 }

/-- Witness for the update frame condition at a concrete table. -/
theorem c10_update_frame_witness :
    List.Forall₂ (UpdateFrameRel c10s 2) (updateRun c10s c2db) c2db :=
  c10_update_frame c10s c2db 2 rfl (by decide) (by decide)

end AgentGit
